import Mathlib

/-!
# Generation and tool-calling orchestration of `llm/openai/openai.go`

A shallow embedding of the OpenAI generation client: the cache short-circuit,
the unary and the streamed provider call, the reconstruction of tool calls from
stream deltas, tool dispatch, and the observation hooks around a call.

Go values become Lean values; a Go call returning `(value, error)` becomes a
pair whose second component is `Option Err` (`none` is the nil error).  The
collaborators of a call (provider client, cache, observer, tool callables) are
functions stored in the configuration, and every invocation of one of them is
recorded, in program order, in the `trace` of the run.
-/

namespace Lingoose

/-! ## Errors -/

/-- Go error values: package-level error values, errors built by `fmt.Errorf` without
a wrapping verb, and the two wrapping shapes the client uses; and the value of a run-time
panic, which a run records where it would have returned its error. -/
inductive Err where
  /-- package-level error value (`var ErrX = errors.New(text)`), identified by its name -/
  | sentinel (name : String) (text : String)
  /-- result of `fmt.Errorf` with no `%w` verb -/
  | errorf (text : String)
  /-- result of `fmt.Errorf("%w: <suffix>", inner)` -/
  | wrapText (inner : Err) (suffix : String)
  /-- result of `fmt.Errorf("%w: %w", first, second)` -/
  | wrapBoth (first second : Err)
  /-- value of a run-time panic: the call that raised it does not return -/
  | panic (text : String)
  deriving DecidableEq, Repr

/-- Go `errors.Is(err, target)` for a non-nil `err`: the chain of `err` contains `target`. -/
def Err.Is : Err → Err → Bool
  | .sentinel n s, target => Err.sentinel n s == target
  | .errorf s, target => Err.errorf s == target
  | .wrapText inner s, target => Err.wrapText inner s == target || inner.Is target
  | .wrapBoth a b, target => Err.wrapBoth a b == target || a.Is target || b.Is target
  | .panic s, target => Err.panic s == target

/-- Go `errors.Is(err, target)` where `err` may be nil. -/
def errorsIs (err : Option Err) (target : Err) : Bool :=
  match err with
  | none => false
  | some e => e.Is target

/-- Go `err.Error()`: the message text. -/
def Err.Error : Err → String
  | .sentinel _ text => text
  | .errorf text => text
  | .wrapText inner suffix => inner.Error ++ ": " ++ suffix
  | .wrapBoth a b => a.Error ++ ": " ++ b.Error
  | .panic text => text

/-- How a Go call ends: it returns its results, or it panics. -/
inductive Ending (α : Type) where
  | returned (value : α)
  | panicked (text : String)
  deriving DecidableEq, Repr

/-- The text of the run-time panic raised by a field access through a nil pointer. -/
def nilDereference : String :=
  "runtime error: invalid memory address or nil pointer dereference"

/-- The standard library's `io.EOF`. -/
def ioEOF : Err := .sentinel "io.EOF" "EOF"

/-- Modelled from the spec: the distinguished cache-miss error `cache.ErrCacheMiss`
(declared outside the given sources); only its identity is used. -/
def ErrCacheMiss : Err := .sentinel "cache.ErrCacheMiss" "cache miss"

/-- Modelled from the spec: the call-identifying error value `ErrOpenAIChat` every
error of the client is wrapped with (declared outside the given sources); only its
identity is used. -/
def ErrOpenAIChat : Err := .sentinel "openai.ErrOpenAIChat" "openai chat error"

/-- The end-of-stream marker handed to the stream callback. -/
def EOS : String := "\x00"

/-! ## Provider wire types (`go-openai`) -/

/-- The type `openai.FunctionCall`. -/
structure FunctionCall where
  Name : String
  Arguments : String
  deriving DecidableEq, Repr

/-- The type `openai.ToolCall`. -/
structure ToolCall where
  Index : Option Int
  ID : String
  Typ : String
  Function : FunctionCall
  deriving DecidableEq, Repr

/-- The zero value of `openai.ToolCall` (`var currentToolCall openai.ToolCall`). -/
def ToolCall.zero : ToolCall := ⟨none, "", "", ⟨"", ""⟩⟩

/-! ## Conversation thread (package `thread`, modelled from the spec's data model) -/

namespace thread

/-- Message roles. -/
inductive Role where
  | system | user | assistant | tool
  deriving DecidableEq, Repr

/-- Content tags. -/
inductive ContentType where
  | text | image | toolCall | toolResponse
  deriving DecidableEq, Repr

/-- A tool call as recorded in the thread: `{id, functionName, argumentsJSON}`. -/
structure ToolCallData where
  ID : String
  Name : String
  Arguments : String
  deriving DecidableEq, Repr

/-- A tool result as recorded in the thread; it carries the id of its originating call. -/
structure ToolResponseData where
  ID : String
  Name : String
  Result : String
  deriving DecidableEq, Repr

/-- Modelled from the spec: content is a tagged union of text and structured payloads. -/
inductive Content where
  | text (data : String)
  | image (data : String)
  | toolCall (data : List ToolCallData)
  | toolResponse (data : ToolResponseData)
  deriving DecidableEq, Repr

/-- The tag of a content (`content.Type`). -/
def Content.Typ : Content → ContentType
  | .text _ => .text
  | .image _ => .image
  | .toolCall _ => .toolCall
  | .toolResponse _ => .toolResponse

/-- A message: a role and an ordered list of contents. -/
structure Message where
  Role : Role
  Contents : List Content
  deriving DecidableEq, Repr

/-- The thread: an ordered list of messages. -/
structure Thread where
  Messages : List Message
  deriving DecidableEq, Repr

/-- Modelled from the spec: `NewAssistantMessage` creates an empty assistant message. -/
def NewAssistantMessage : Message := ⟨.assistant, []⟩

/-- Modelled from the spec: `NewToolMessage` creates an empty tool-role message. -/
def NewToolMessage : Message := ⟨.tool, []⟩

/-- Modelled from the spec: `AddContent` appends one content to a message under construction. -/
def Message.AddContent (m : Message) (c : Content) : Message :=
  { m with Contents := m.Contents ++ [c] }

/-- Modelled from the spec: `NewTextContent` wraps a string as text content. -/
def NewTextContent (s : String) : Content := .text s

/-- Modelled from the spec: `AddMessage` appends one message at the end of the thread. -/
def Thread.AddMessage (t : Thread) (m : Message) : Thread :=
  { t with Messages := t.Messages ++ [m] }

/-- Modelled from the spec: `AddMessages` appends the messages in order. -/
def Thread.AddMessages (t : Thread) (ms : List Message) : Thread :=
  { t with Messages := t.Messages ++ ms }

/-- Modelled from the spec: `LastMessage` is the most recently appended message, and a
defined empty result (`none`) on an empty thread. -/
def Thread.LastMessage (t : Thread) : Option Message :=
  t.Messages.getLast?

/-- The text contents of one message, in order. -/
def Message.texts (m : Message) : List String :=
  m.Contents.filterMap (fun c => match c with | .text s => some s | _ => none)

/-- Modelled from the spec: `UserQuery` collects all user-authored text content, in order. -/
def Thread.UserQuery (t : Thread) : List String :=
  (t.Messages.filter (fun m => m.Role == .user)).flatMap Message.texts

end thread

open thread

/-- Go `strings.Join(elems, sep)`. -/
def stringsJoin (elems : List String) (sep : String) : String :=
  sep.intercalate elems

/-! ## Requests and responses of the provider -/

/-- One message of the request, in the provider's wire roles. -/
structure ChatCompletionMessage where
  Role : String
  Contents : List Content
  deriving DecidableEq, Repr

/-- The type `openai.Tool`, with the function definition inlined. -/
structure Tool where
  Typ : String
  Name : String
  Description : String
  Parameters : String
  deriving DecidableEq, Repr

/-- The values `getChatCompletionRequestToolChoice` can return. -/
inductive ToolChoiceValue where
  /-- the string "none" -/
  | noneChoice
  /-- the string "auto" -/
  | auto
  /-- an `openai.ToolChoice` forcing one function -/
  | function (name : String)
  deriving DecidableEq, Repr

/-- The fields of `openai.ChatCompletionRequest` the client sets.  A numeric field left at
zero, an absent response format, a nil tool list and a nil tool choice are omitted from
the wire payload. -/
structure ChatCompletionRequest where
  Model : String
  Messages : List ChatCompletionMessage
  MaxTokens : Int
  MaxCompletionTokens : Int
  Temperature : Rat
  TopP : Rat
  N : Int
  Stop : List String
  ResponseFormat : Option String
  Tools : Option (List Tool)
  ToolChoice : Option ToolChoiceValue
  deriving DecidableEq, Repr

/-- The type `openai.PromptTokensDetails`. -/
structure PromptTokensDetails where
  AudioTokens : Int
  CachedTokens : Int
  deriving DecidableEq, Repr

/-- The type `openai.Usage`. -/
structure Usage where
  PromptTokens : Int
  CompletionTokens : Int
  TotalTokens : Int
  PromptTokensDetails : Option PromptTokensDetails
  deriving DecidableEq, Repr

/-- The message of a unary choice. -/
structure ChatCompletionResponseMessage where
  Content : String
  ToolCalls : List ToolCall
  deriving DecidableEq, Repr

/-- The type `openai.ChatCompletionChoice`. -/
structure ChatCompletionChoice where
  FinishReason : String
  Message : ChatCompletionResponseMessage
  deriving DecidableEq, Repr

/-- The type `openai.ChatCompletionResponse`. -/
structure ChatCompletionResponse where
  Choices : List ChatCompletionChoice
  Usage : Usage
  deriving DecidableEq, Repr

/-- The type `openai.ChatCompletionStreamChoiceDelta`. -/
structure ChatCompletionStreamChoiceDelta where
  Content : String
  ToolCalls : List ToolCall
  deriving DecidableEq, Repr

/-- The type `openai.ChatCompletionStreamChoice`. -/
structure ChatCompletionStreamChoice where
  Delta : ChatCompletionStreamChoiceDelta
  FinishReason : String
  deriving DecidableEq, Repr

/-- The type `openai.ChatCompletionStreamResponse`: one chunk of a stream. -/
structure ChatCompletionStreamResponse where
  Choices : List ChatCompletionStreamChoice
  deriving DecidableEq, Repr

/-- The finish reason `openai.FinishReasonToolCalls`. -/
def FinishReasonToolCalls : String := "tool_calls"

/-- What one `stream.Recv()` returns: a chunk and an error. -/
abbrev RecvResult := ChatCompletionStreamResponse × Option Err

/-- The provider behind `openAIClient`.  A stream is the finite script of what successive
`Recv` calls return; once the script is exhausted `Recv` reports `io.EOF`. -/
structure Client where
  CreateChatCompletion : ChatCompletionRequest → ChatCompletionResponse × Option Err
  CreateChatCompletionStream : ChatCompletionRequest → List RecvResult × Option Err

/-! ## Cache, observer and tools -/

/-- An embedding vector (`[]float64` in the source); the client never looks at its
entries, it only passes the vector from `Get` to `Set`. -/
abbrev Embedding := List Int

namespace cache

/-- The type `cache.Result`: the answer lines and the embedding of the query. -/
structure Result where
  Answer : List String
  Embedding : Embedding
  deriving DecidableEq, Repr

/-- Modelled from the spec: the cache interface `Get(query)` and `Set(embedding, answer)`. -/
structure Cache where
  Get : String → Result × Option Err
  Set : Embedding → String → Option Err

end cache

namespace observer

/-- The model parameters reported to the observer. -/
structure ModelParameters where
  maxTokens : Int
  temperature : Rat
  deriving DecidableEq, Repr

/-- The generation record handed to the observation hooks. -/
structure Generation where
  TraceID : String
  ParentID : String
  Name : String
  Model : String
  ModelParameters : ModelParameters
  Input : List Message
  Output : List Message
  deriving DecidableEq, Repr

/-- The interface `LLMObserver`: each hook returns a pointer to a record, which may be nil
(`none`), and an error.  Messages are values here: the spec's data model has a message
created once and immutable thereafter, so a hook reads the messages it is handed and
cannot change the thread through them. -/
structure LLMObserver where
  Generation : observer.Generation → Option observer.Generation × Option Err
  GenerationEnd : observer.Generation → Option observer.Generation × Option Err

end observer

/-- What a call reads from its `context.Context`: the observer instance, if any, and the
trace and parent ids. -/
structure Context where
  observerInstance : Option observer.LLMObserver
  traceID : String
  parentID : String

/-- A registered tool.  `Fn` is the callable as seen through `callFnWithArgumentAsJSON`:
from the JSON argument text to the JSON result text and an error. -/
structure Function where
  Name : String
  Description : String
  Parameters : String
  Fn : String → String × Option Err

/-- Modelled from the spec: `callFnWithArgumentAsJSON` decodes the arguments, invokes the
callable and encodes its result (`invoke(argumentsJSON) -> (resultJSON, error)`). -/
def callFnWithArgumentAsJSON (fn : String → String × Option Err) (argumentsAsJSON : String) :
    String × Option Err :=
  fn argumentsAsJSON

/-- The client configuration `OpenAI`.  `functions` lists the entries of the Go map (keys
are distinct there); the two callbacks are recorded by whether they are set, and their
invocations appear in the trace; `temperature` (a `float32` in the source) is a rational. -/
structure OpenAI where
  openAIClient : Client
  model : String
  temperature : Rat
  maxTokens : Int
  maxCompletionTokens : Int
  reasoningEffort : String
  stop : List String
  usageCallback : Bool
  functions : List (String × Function)
  streamCallbackFn : Bool
  responseFormat : Option String
  toolChoice : Option String
  cache : Option cache.Cache
  Name : String

/-- One invocation of a collaborator, as it appears in the trace of a run. -/
inductive Event where
  | cacheGet (query : String)
  | cacheSet (embedding : Embedding) (answer : String)
  | observerGeneration (record : observer.Generation)
  | observerGenerationEnd (record : observer.Generation)
  | createChatCompletion (request : ChatCompletionRequest)
  | createChatCompletionStream (request : ChatCompletionRequest)
  | recv
  | usageCallback (usage : Usage)
  | toolFn (name : String) (arguments : String)
  | streamCallback (chunk : String)
  deriving DecidableEq, Repr

/-! ## Tool dispatch -/

/-- Modelled from the spec: the assistant message recording the raw tool-call set. -/
def toolCallsToToolCallMessage (toolCalls : List ToolCall) : Message :=
  NewAssistantMessage.AddContent
    (.toolCall (toolCalls.map (fun tc => ⟨tc.ID, tc.Function.Name, tc.Function.Arguments⟩)))

/-- Modelled from the spec: the tool-role message of one dispatched call, referencing the
id of its originating call. -/
def toolCallResultToThreadMessage (toolCall : ToolCall) (result : String) : Message :=
  NewToolMessage.AddContent (.toolResponse ⟨toolCall.ID, toolCall.Function.Name, result⟩)

/-- The method `callTool`: look the function up by name and invoke it. -/
def callTool (o : OpenAI) (toolCall : ToolCall) : (String × Option Err) × List Event :=
  match o.functions.lookup toolCall.Function.Name with
  | none => (("", some (.errorf ("unknown function " ++ toolCall.Function.Name))), [])
  | some fn =>
    let event := [Event.toolFn toolCall.Function.Name toolCall.Function.Arguments]
    match callFnWithArgumentAsJSON fn.Fn toolCall.Function.Arguments with
    | (_, some err) => (("", some err), event)
    | (resultAsJSON, none) => ((resultAsJSON, none), event)

/-- The result text `callTools` records for one call: the tool's result, or
`fmt.Sprintf("error: %s", err)` when the call failed. -/
def toolResultText (r : String × Option Err) : String :=
  match r.2 with
  | some err => "error: " ++ err.Error
  | none => r.1

/-- One iteration of the loop of `callTools`. -/
def callToolsStep (o : OpenAI) (acc : List Message × List Event) (toolCall : ToolCall) :
    List Message × List Event :=
  let r := callTool o toolCall
  (acc.1 ++ [toolCallResultToThreadMessage toolCall (toolResultText r.1)], acc.2 ++ r.2)

/-- The method `callTools`: nothing when the registry or the call list is empty, else one
message per call, in input order. -/
def callTools (o : OpenAI) (toolCalls : List ToolCall) : List Message × List Event :=
  if o.functions.length == 0 || toolCalls.length == 0 then
    ([], [])
  else
    toolCalls.foldl (callToolsStep o) ([], [])

/-! ## Streaming -/

/-- The function `isStreamToolCallResponse`.  It reads `Choices[0]`; its caller has checked
that the chunk has a choice. -/
def isStreamToolCallResponse (response : ChatCompletionStreamResponse) : Bool :=
  match response.Choices with
  | [] => false
  | choice :: _ =>
    choice.FinishReason == FinishReasonToolCalls || decide (choice.Delta.ToolCalls.length > 0)

/-- The function `handleStreamToolCallResponse`.  The result is the pair
`(updatedToolCall, isNewTool)` together with the value of `*currentToolCall` after the call,
which the function extends in place on an argument fragment. -/
def handleStreamToolCallResponse (response : ChatCompletionStreamResponse)
    (currentToolCall : ToolCall) : (ToolCall × Bool) × ToolCall :=
  match response.Choices with
  | [] => ((ToolCall.zero, false), currentToolCall)
  | choice :: _ =>
    match choice.Delta.ToolCalls with
    | [] => ((ToolCall.zero, false), currentToolCall)
    | first :: _ =>
      if first.ID != "" then
        ((first, true), currentToolCall)
      else
        ((ToolCall.zero, false),
          { currentToolCall with
            Function := { currentToolCall.Function with
              Arguments := currentToolCall.Function.Arguments ++ first.Function.Arguments } })

/-- The method `handleEndOfStream`: signal the end to the callback, append the text message
if text was accumulated, and if a tool call is open commit it, record the calls and
dispatch them. -/
def handleEndOfStream (o : OpenAI) (messages : List Message) (content : String)
    (currentToolCall : ToolCall) (allToolCalls : List ToolCall) : List Message × List Event :=
  let messages :=
    if content.length > 0 then
      messages ++ [NewAssistantMessage.AddContent (NewTextContent content)]
    else messages
  if currentToolCall.ID != "" then
    let allToolCalls := allToolCalls ++ [currentToolCall]
    let messages := messages ++ [toolCallsToToolCallMessage allToolCalls]
    let dispatched := callTools o allToolCalls
    (messages ++ dispatched.1, Event.streamCallback EOS :: dispatched.2)
  else
    (messages, [Event.streamCallback EOS])

/-- The variables of the loop of `stream`. -/
structure StreamState where
  content : String
  allToolCalls : List ToolCall
  currentToolCall : ToolCall
  deriving DecidableEq, Repr

/-- The loop variables before the first chunk. -/
def StreamState.init : StreamState := ⟨"", [], ToolCall.zero⟩

/-- The body of the loop of `stream` for one chunk that has a choice: a tool-call chunk
updates the tool-call variables, any other chunk extends the text. -/
def streamStep (st : StreamState) (response : ChatCompletionStreamResponse) : StreamState :=
  if isStreamToolCallResponse response then
    let handled := handleStreamToolCallResponse response st.currentToolCall
    let currentToolCall := handled.2
    if handled.1.2 then
      let allToolCalls :=
        if currentToolCall.ID != "" then st.allToolCalls ++ [currentToolCall]
        else st.allToolCalls
      { st with allToolCalls := allToolCalls, currentToolCall := handled.1.1 }
    else
      { st with currentToolCall := currentToolCall }
  else
    match response.Choices with
    | [] => st
    | choice :: _ => { st with content := st.content ++ choice.Delta.Content }

/-- The text handed to the stream callback for one chunk: `Choices[0].Delta.Content`. -/
def deltaContent (response : ChatCompletionStreamResponse) : String :=
  match response.Choices with
  | [] => ""
  | choice :: _ => choice.Delta.Content

/-- The loop of `stream` over the script of `Recv` results.  The result is the error, the
messages built at the end of the stream, and the trace. -/
def streamLoop (o : OpenAI) : List RecvResult → StreamState →
    (Option Err × List Message) × List Event
  | [], st =>
    let ended := handleEndOfStream o [] st.content st.currentToolCall st.allToolCalls
    ((none, ended.1), Event.recv :: ended.2)
  | (response, errRecv) :: rest, st =>
    if errorsIs errRecv ioEOF then
      let ended := handleEndOfStream o [] st.content st.currentToolCall st.allToolCalls
      ((none, ended.1), Event.recv :: ended.2)
    else if response.Choices.length == 0 then
      ((some (.wrapText ErrOpenAIChat "no choices returned"), []), [Event.recv])
    else
      let next := streamLoop o rest (streamStep st response)
      (next.1, Event.recv :: Event.streamCallback (deltaContent response) :: next.2)

/-- The outcome of a call on a thread: the returned error (or, for a call that panicked,
the panic value `Err.panic`, which no call returns), the thread after the call, and the
collaborator invocations made, in order. -/
structure Run where
  err : Option Err
  thread : Thread
  trace : List Event

/-- The method `stream`. -/
def stream (o : OpenAI) (t : Thread) (chatCompletionRequest : ChatCompletionRequest) : Run :=
  let opened := o.openAIClient.CreateChatCompletionStream chatCompletionRequest
  let call := Event.createChatCompletionStream chatCompletionRequest
  match opened.2 with
  | some err => ⟨some (.wrapBoth ErrOpenAIChat err), t, [call]⟩
  | none =>
    let looped := streamLoop o opened.1 StreamState.init
    match looped.1.1 with
    | some err => ⟨some err, t, call :: looped.2⟩
    | none => ⟨none, t.AddMessages looped.1.2, call :: looped.2⟩

/-! ## Unary call -/

/-- The guarded call of `setUsageMetadata`: the usage callback is invoked with the usage of
the response when a callback is set. -/
def setUsageMetadata (o : OpenAI) (usage : Usage) : List Event :=
  if o.usageCallback then [Event.usageCallback usage] else []

/-- The method `generate`. -/
def generate (o : OpenAI) (t : Thread) (chatCompletionRequest : ChatCompletionRequest) : Run :=
  let called := o.openAIClient.CreateChatCompletion chatCompletionRequest
  let call := Event.createChatCompletion chatCompletionRequest
  match called.2 with
  | some err => ⟨some (.wrapBoth ErrOpenAIChat err), t, [call]⟩
  | none =>
    let response := called.1
    let trace := call :: setUsageMetadata o response.Usage
    match response.Choices with
    | [] => ⟨some (.wrapText ErrOpenAIChat "no choices returned"), t, trace⟩
    | choice :: _ =>
      if choice.FinishReason == "tool_calls" || decide (choice.Message.ToolCalls.length > 0) then
        let dispatched := callTools o choice.Message.ToolCalls
        let messages := [toolCallsToToolCallMessage choice.Message.ToolCalls] ++ dispatched.1
        ⟨none, { t with Messages := t.Messages ++ messages }, trace ++ dispatched.2⟩
      else
        let messages := [NewAssistantMessage.AddContent (NewTextContent choice.Message.Content)]
        ⟨none, { t with Messages := t.Messages ++ messages }, trace⟩

/-- The type `llm_with_usage.TokensUsage`. -/
structure TokensUsage where
  PromptTokens : Int
  CompletionTokens : Int
  AudioTokens : Int
  CachedTokens : Int
  deriving DecidableEq, Repr

/-- The usage value `generateWithUsage` returns for a response. -/
def usageOfResponse (response : ChatCompletionResponse) : TokensUsage :=
  let usage : TokensUsage :=
    { PromptTokens := response.Usage.PromptTokens,
      CompletionTokens := response.Usage.CompletionTokens,
      AudioTokens := 0,
      CachedTokens := 0 }
  match response.Usage.PromptTokensDetails with
  | some details =>
    { usage with AudioTokens := details.AudioTokens, CachedTokens := details.CachedTokens }
  | none => usage

/-- The method `generateWithUsage`. -/
def generateWithUsage (o : OpenAI) (t : Thread) (chatCompletionRequest : ChatCompletionRequest) :
    Option TokensUsage × Run :=
  let called := o.openAIClient.CreateChatCompletion chatCompletionRequest
  let call := Event.createChatCompletion chatCompletionRequest
  match called.2 with
  | some err => (none, ⟨some (.wrapBoth ErrOpenAIChat err), t, [call]⟩)
  | none =>
    let response := called.1
    let trace := call :: setUsageMetadata o response.Usage
    match response.Choices with
    | [] => (none, ⟨some (.wrapText ErrOpenAIChat "no choices returned"), t, trace⟩)
    | choice :: _ =>
      if choice.FinishReason == "tool_calls" || decide (choice.Message.ToolCalls.length > 0) then
        let dispatched := callTools o choice.Message.ToolCalls
        let messages := [toolCallsToToolCallMessage choice.Message.ToolCalls] ++ dispatched.1
        (some (usageOfResponse response),
          ⟨none, { t with Messages := t.Messages ++ messages }, trace ++ dispatched.2⟩)
      else
        let messages := [NewAssistantMessage.AddContent (NewTextContent choice.Message.Content)]
        (some (usageOfResponse response),
          ⟨none, { t with Messages := t.Messages ++ messages }, trace⟩)

/-! ## Request construction -/

/-- The package constants `DefaultOpenAINumResults` and `DefaultOpenAITopP`, declared outside
the given sources and therefore taken as parameters. -/
structure Defaults where
  DefaultOpenAINumResults : Int
  DefaultOpenAITopP : Rat
  deriving DecidableEq, Repr

/-- The table `threadRoleToOpenAIRole`. -/
def threadRoleToOpenAIRole : Role → String
  | .system => "system"
  | .user => "user"
  | .assistant => "assistant"
  | .tool => "tool"

/-- Modelled from the spec: `threadToChatCompletionMessages` collects the non-empty thread
messages and maps each to the provider's wire role. -/
def threadToChatCompletionMessages (t : Thread) : List ChatCompletionMessage :=
  (t.Messages.filter (fun m => decide (m.Contents.length > 0))).map
    (fun m => ⟨threadRoleToOpenAIRole m.Role, m.Contents⟩)

/-- The method `buildChatCompletionRequest`. -/
def buildChatCompletionRequest (d : Defaults) (o : OpenAI) (t : Thread) :
    ChatCompletionRequest :=
  let responseFormat : Option String :=
    match o.responseFormat with
    | some format => some format
    | none => none
  let r : ChatCompletionRequest :=
    { Model := o.model,
      Messages := threadToChatCompletionMessages t,
      MaxTokens := 0,
      MaxCompletionTokens := 0,
      Temperature := 0,
      TopP := d.DefaultOpenAITopP,
      N := d.DefaultOpenAINumResults,
      Stop := o.stop,
      ResponseFormat := responseFormat,
      Tools := none,
      ToolChoice := none }
  let r := if o.maxTokens > 0 then { r with MaxTokens := o.maxTokens } else r
  let r :=
    if o.maxCompletionTokens > 0 then { r with MaxCompletionTokens := o.maxCompletionTokens }
    else r
  let r := if o.temperature > 0 then { r with Temperature := o.temperature } else r
  r

/-- The method `getChatCompletionRequestTools`: one tool per registered function (in the
order of the registry listing; Go leaves the order of a map iteration open). -/
def getChatCompletionRequestTools (o : OpenAI) : List Tool :=
  o.functions.foldl
    (fun tools entry =>
      tools ++ [⟨"function", entry.2.Name, entry.2.Description, entry.2.Parameters⟩])
    []

/-- The method `getChatCompletionRequestToolChoice`. -/
def getChatCompletionRequestToolChoice (o : OpenAI) : ToolChoiceValue :=
  match o.toolChoice with
  | none => .noneChoice
  | some choice => if choice == "auto" then .auto else .function choice

/-- The request `Generate` and `GenerateWithUsage` send: the built request, with the tools
and the tool choice attached when functions are registered. -/
def requestWithTools (d : Defaults) (o : OpenAI) (t : Thread) : ChatCompletionRequest :=
  let chatCompletionRequest := buildChatCompletionRequest d o t
  if o.functions.length > 0 then
    { chatCompletionRequest with
      Tools := some (getChatCompletionRequestTools o),
      ToolChoice := some (getChatCompletionRequestToolChoice o) }
  else chatCompletionRequest

/-! ## Cache short-circuit -/

/-- The method `getCache` on the configured cache: probe with the user query; on success
append the assistant message built from the cached answer. -/
def getCache (c : cache.Cache) (t : Thread) : (cache.Result × Option Err) × Thread × List Event :=
  let messages := t.UserQuery
  let cacheQuery := stringsJoin messages "\n"
  let got := c.Get cacheQuery
  match got.2 with
  | some err => ((got.1, some err), t, [Event.cacheGet cacheQuery])
  | none =>
    ((got.1, none),
      t.AddMessage (NewAssistantMessage.AddContent
        (NewTextContent (stringsJoin got.1.Answer "\n"))),
      [Event.cacheGet cacheQuery])

/-- The loop of `setCache` over the contents of the last message: collect the text data,
and reset to nothing at the first content that is not text. -/
def setCacheContents : List Content → List String → List String
  | [], contents => contents
  | content :: rest, contents =>
    match content with
    | .text data => setCacheContents rest (contents ++ [data])
    | _ => []

/-- The method `setCache` on the configured cache.  Nothing is written unless the last
message is an assistant message with contents; on an empty thread `LastMessage` gives its
empty result, which is no assistant message. -/
def setCache (c : cache.Cache) (t : Thread) (cacheResult : cache.Result) :
    Option Err × List Event :=
  match t.LastMessage with
  | none => (none, [])
  | some lastMessage =>
    if lastMessage.Role != Role.assistant || lastMessage.Contents.length == 0 then
      (none, [])
    else
      let contents := setCacheContents lastMessage.Contents []
      let answer := stringsJoin contents "\n"
      (c.Set cacheResult.Embedding answer, [Event.cacheSet cacheResult.Embedding answer])

/-! ## Observation hooks -/

/-- The function `StartObserveGeneration`: without an observer in the context nothing
happens; else the observer's `Generation` hook receives the record of the call. -/
def StartObserveGeneration (ctx : Context) (name : String) (modelName : String)
    (modelParameters : observer.ModelParameters) (t : Thread) :
    (Option observer.Generation × Option Err) × List Event :=
  match ctx.observerInstance with
  | none => ((none, none), [])
  | some ob =>
    let record : observer.Generation :=
      { TraceID := ctx.traceID,
        ParentID := ctx.parentID,
        Name := "llm-" ++ name,
        Model := modelName,
        ModelParameters := modelParameters,
        Input := t.Messages,
        Output := [] }
    let hooked := ob.Generation record
    match hooked.2 with
    | some err => ((none, some err), [Event.observerGeneration record])
    | none => ((hooked.1, none), [Event.observerGeneration record])

/-- The function `StopObserveGeneration`: without an observer nothing happens; else the
record gets the produced messages as output and goes to the `GenerationEnd` hook, whose
error is returned.  The assignment `generation.Output = messages` goes through the record
pointer without a check: on a nil record it panics. -/
def StopObserveGeneration (ctx : Context) (generation : Option observer.Generation)
    (messages : List Message) : Ending (Option Err) × List Event :=
  match ctx.observerInstance with
  | none => (.returned none, [])
  | some ob =>
    match generation with
    | none => (.panicked nilDereference, [])
    | some generation =>
      let generation := { generation with Output := messages }
      (.returned (ob.GenerationEnd generation).2, [Event.observerGenerationEnd generation])

/-- The method `startObserveGeneration`. -/
def startObserveGeneration (o : OpenAI) (ctx : Context) (t : Thread) :
    (Option observer.Generation × Option Err) × List Event :=
  StartObserveGeneration ctx o.Name o.model ⟨o.maxTokens, o.temperature⟩ t

/-- The method `stopObserveGeneration`. -/
def stopObserveGeneration (ctx : Context) (generation : Option observer.Generation)
    (messages : List Message) : Ending (Option Err) × List Event :=
  StopObserveGeneration ctx generation messages

/-! ## Entry points -/

/-- The part of `Generate` after the cache probe (source lines 212-247): observe, call the
provider (streamed when a stream callback is set), observe the end, write the cache.
`cached` is the configured cache with the result of its probe, `none` without a cache.
A panic of `stopObserveGeneration` ends the call there: the run records the panic in place
of a returned error, with the thread and the trace as they are at that point. -/
def generateAfterProbe (d : Defaults) (o : OpenAI) (ctx : Context) (t : Thread)
    (cached : Option (cache.Cache × cache.Result)) : Run :=
  let chatCompletionRequest := requestWithTools d o t
  let started := startObserveGeneration o ctx t
  match started.1.2 with
  | some err => ⟨some (.wrapBoth ErrOpenAIChat err), t, started.2⟩
  | none =>
    let generation := started.1.1
    let nMessageBeforeGeneration := t.Messages.length
    let generated :=
      if o.streamCallbackFn then stream o t chatCompletionRequest
      else generate o t chatCompletionRequest
    match generated.err with
    | some err => ⟨some err, generated.thread, started.2 ++ generated.trace⟩
    | none =>
      let stopped := stopObserveGeneration ctx generation
        (generated.thread.Messages.drop nMessageBeforeGeneration)
      match stopped.1 with
      | .panicked text =>
        ⟨some (.panic text), generated.thread, started.2 ++ generated.trace ++ stopped.2⟩
      | .returned (some err) =>
        ⟨some (.wrapBoth ErrOpenAIChat err), generated.thread,
          started.2 ++ generated.trace ++ stopped.2⟩
      | .returned none =>
        match cached with
        | none => ⟨none, generated.thread, started.2 ++ generated.trace ++ stopped.2⟩
        | some (c, cacheResult) =>
          let written := setCache c generated.thread cacheResult
          match written.1 with
          | some err =>
            ⟨some (.wrapBoth ErrOpenAIChat err), generated.thread,
              started.2 ++ generated.trace ++ stopped.2 ++ written.2⟩
          | none =>
            ⟨none, generated.thread, started.2 ++ generated.trace ++ stopped.2 ++ written.2⟩

/-- The method `Generate` on a thread (a nil thread returns at once). -/
def Generate (d : Defaults) (o : OpenAI) (ctx : Context) (t : Thread) : Run :=
  match o.cache with
  | none => generateAfterProbe d o ctx t none
  | some c =>
    let probed := getCache c t
    match probed.1.2 with
    | none => ⟨none, probed.2.1, probed.2.2⟩
    | some err =>
      if !errorsIs (some err) ErrCacheMiss then
        ⟨some (.wrapBoth ErrOpenAIChat err), probed.2.1, probed.2.2⟩
      else
        let live := generateAfterProbe d o ctx probed.2.1 (some (c, probed.1.1))
        { live with trace := probed.2.2 ++ live.trace }

/-- The part of `GenerateWithUsage` after the cache probe (source lines 266-304).  A panic
of `stopObserveGeneration` ends the call there, with no usage value. -/
def generateWithUsageAfterProbe (d : Defaults) (o : OpenAI) (ctx : Context) (t : Thread)
    (cached : Option (cache.Cache × cache.Result)) : Option TokensUsage × Run :=
  let chatCompletionRequest := requestWithTools d o t
  let started := startObserveGeneration o ctx t
  match started.1.2 with
  | some err => (none, ⟨some (.wrapBoth ErrOpenAIChat err), t, started.2⟩)
  | none =>
    let generation := started.1.1
    let nMessageBeforeGeneration := t.Messages.length
    let generated : Option TokensUsage × Run :=
      if o.streamCallbackFn then
        (some ⟨0, 0, 0, 0⟩, stream o t chatCompletionRequest)
      else generateWithUsage o t chatCompletionRequest
    let usage := generated.1
    match generated.2.err with
    | some err => (none, ⟨some err, generated.2.thread, started.2 ++ generated.2.trace⟩)
    | none =>
      let stopped := stopObserveGeneration ctx generation
        (generated.2.thread.Messages.drop nMessageBeforeGeneration)
      match stopped.1 with
      | .panicked text =>
        (none, ⟨some (.panic text), generated.2.thread,
          started.2 ++ generated.2.trace ++ stopped.2⟩)
      | .returned (some err) =>
        (none, ⟨some (.wrapBoth ErrOpenAIChat err), generated.2.thread,
          started.2 ++ generated.2.trace ++ stopped.2⟩)
      | .returned none =>
        match cached with
        | none => (usage, ⟨none, generated.2.thread, started.2 ++ generated.2.trace ++ stopped.2⟩)
        | some (c, cacheResult) =>
          let written := setCache c generated.2.thread cacheResult
          match written.1 with
          | some err =>
            (none, ⟨some (.wrapBoth ErrOpenAIChat err), generated.2.thread,
              started.2 ++ generated.2.trace ++ stopped.2 ++ written.2⟩)
          | none =>
            (usage, ⟨none, generated.2.thread,
              started.2 ++ generated.2.trace ++ stopped.2 ++ written.2⟩)

/-- The method `GenerateWithUsage` on a thread (a nil thread returns at once). -/
def GenerateWithUsage (d : Defaults) (o : OpenAI) (ctx : Context) (t : Thread) :
    Option TokensUsage × Run :=
  match o.cache with
  | none => generateWithUsageAfterProbe d o ctx t none
  | some c =>
    let probed := getCache c t
    match probed.1.2 with
    | none => (none, ⟨none, probed.2.1, probed.2.2⟩)
    | some err =>
      if !errorsIs (some err) ErrCacheMiss then
        (none, ⟨some (.wrapBoth ErrOpenAIChat err), probed.2.1, probed.2.2⟩)
      else
        let live := generateWithUsageAfterProbe d o ctx probed.2.1 (some (c, probed.1.1))
        (live.1, { live.2 with trace := probed.2.2 ++ live.2.trace })

/-! ## Trace queries -/

/-- An invocation of the provider: a unary call, the opening of a stream, or a receive. -/
def Event.isProvider : Event → Bool
  | .createChatCompletion _ => true
  | .createChatCompletionStream _ => true
  | .recv => true
  | _ => false

/-- An invocation of an observation hook. -/
def Event.isObserver : Event → Bool
  | .observerGeneration _ => true
  | .observerGenerationEnd _ => true
  | _ => false

/-- A cache write. -/
def Event.isCacheSet : Event → Bool
  | .cacheSet _ _ => true
  | _ => false

/-- An invocation made by the provider round trip itself: a provider call, a tool call, or
one of the two callbacks. -/
def Event.isGeneration : Event → Bool
  | .createChatCompletion _ => true
  | .createChatCompletionStream _ => true
  | .recv => true
  | .usageCallback _ => true
  | .toolFn _ _ => true
  | .streamCallback _ => true
  | _ => false

/-- The trace without the invocations of the observation hooks. -/
def withoutObserverCalls (trace : List Event) : List Event :=
  trace.filter (fun e => !e.isObserver)

/-- The observation hooks of the context, if any, succeed: the `Generation` hook returns a
record (not nil) and no error, and the `GenerationEnd` hook returns no error. -/
def Context.hooksSucceed (ctx : Context) : Prop :=
  ∀ ob, ctx.observerInstance = some ob →
    (∀ record, (ob.Generation record).2 = none ∧ (ob.Generation record).1 ≠ none) ∧
    (∀ record, (ob.GenerationEnd record).2 = none)

/-- The texts handed to the stream callback, in order. -/
def sinkCalls (trace : List Event) : List String :=
  trace.filterMap (fun e => match e with | .streamCallback chunk => some chunk | _ => none)

/-! ## What a stream amounts to, stated on the sequence of its chunks -/

/-- How a chunk counts for tool-call reconstruction: it starts a call (its first tool-call
delta has a non-empty id), it continues the open call with an argument fragment (its first
tool-call delta has no id), or it carries no tool-call delta. -/
inductive DeltaKind where
  | start (toolCall : ToolCall)
  | fragment (arguments : String)
  | other
  deriving DecidableEq, Repr

/-- The kind of a chunk, read from the first tool-call delta of its first choice. -/
def deltaKind (response : ChatCompletionStreamResponse) : DeltaKind :=
  match response.Choices with
  | [] => .other
  | choice :: _ =>
    match choice.Delta.ToolCalls with
    | [] => .other
    | first :: _ =>
      if first.ID = "" then .fragment first.Function.Arguments else .start first

/-- The concatenation, in arrival order, of the argument fragments received before the
next chunk that starts a call (or the end of the stream). -/
def fragmentsBeforeNextStart : List ChatCompletionStreamResponse → String
  | [] => ""
  | response :: rest =>
    match deltaKind response with
    | .start _ => ""
    | .fragment arguments => arguments ++ fragmentsBeforeNextStart rest
    | .other => fragmentsBeforeNextStart rest

/-- A tool call with further argument text appended. -/
def ToolCall.extend (toolCall : ToolCall) (arguments : String) : ToolCall :=
  { toolCall with
    Function := { toolCall.Function with
      Arguments := toolCall.Function.Arguments ++ arguments } }

/-- The tool-call records of a stream: one per chunk that starts a call, in arrival order,
each with the arguments of its starting delta followed by the fragments that arrive before
the next start. -/
def toolCallRecords : List ChatCompletionStreamResponse → List ToolCall
  | [] => []
  | response :: rest =>
    match deltaKind response with
    | .start toolCall =>
      toolCall.extend (fragmentsBeforeNextStart rest) :: toolCallRecords rest
    | _ => toolCallRecords rest

/-- The text of a stream: the delta contents, in arrival order, of the chunks that are
not tool-call chunks. -/
def accumulatedText : List ChatCompletionStreamResponse → String
  | [] => ""
  | response :: rest =>
    (if isStreamToolCallResponse response then "" else deltaContent response)
      ++ accumulatedText rest

/-- The messages a stream appends, given its text and its tool-call records: the text
message when there is text, then the tool-call record message and the results of the
dispatch when there are records. -/
def streamMessages (o : OpenAI) (text : String) (records : List ToolCall) : List Message :=
  (if text.length > 0 then [⟨Role.assistant, [Content.text text]⟩] else []) ++
  (if records = [] then []
   else toolCallsToToolCallMessage records :: (callTools o records).1)

/-- A chunk that is received as such: it has a choice and does not come with the
end-of-stream signal. -/
def receivedChunk (r : RecvResult) : Prop :=
  r.1.Choices ≠ [] ∧ errorsIs r.2 ioEOF = false

instance (r : RecvResult) : Decidable (receivedChunk r) := by
  unfold receivedChunk
  infer_instance

/-- The rest of a script at which the stream ends cleanly: the script is exhausted, or the
next receive signals `io.EOF` (what follows it is never received). -/
def endsStream : List RecvResult → Bool
  | [] => true
  | r :: _ => errorsIs r.2 ioEOF

/-! ## Example configurations -/

/-- A provider that is never reached in the examples that use it: it answers with an
empty text choice and an empty stream. -/
def exampleClient : Client :=
  { CreateChatCompletion := fun _ => (⟨[⟨"stop", ⟨"", []⟩⟩], ⟨0, 0, 0, none⟩⟩, none),
    CreateChatCompletionStream := fun _ => ([], none) }

/-- A tool that echoes its arguments, and fails on the empty argument text. -/
def echoFunction : Function :=
  { Name := "echo",
    Description := "echo the arguments",
    Parameters := "",
    Fn := fun arguments =>
      if arguments == "" then ("", some (.errorf "no arguments")) else (arguments, none) }

/-- A configuration with one registered tool, no cache and no callbacks. -/
def exampleOpenAI : OpenAI :=
  { openAIClient := exampleClient,
    model := "gpt-3.5-turbo",
    temperature := 0,
    maxTokens := 0,
    maxCompletionTokens := 0,
    reasoningEffort := "",
    stop := [],
    usageCallback := false,
    functions := [("echo", echoFunction)],
    streamCallbackFn := false,
    responseFormat := none,
    toolChoice := none,
    cache := none,
    Name := "openai" }

/-- A tool call with the given id, function name and arguments. -/
def mkToolCall (id name arguments : String) : ToolCall :=
  ⟨none, id, "function", ⟨name, arguments⟩⟩

/-- Two tool calls: one for the registered tool, one for an unregistered name. -/
def exampleCalls : List ToolCall :=
  [mkToolCall "t1" "echo" "hi", mkToolCall "t2" "nope" "x"]

/-- A stream chunk with one choice carrying a text delta. -/
def textChunk (text : String) : ChatCompletionStreamResponse :=
  ⟨[⟨⟨text, []⟩, ""⟩]⟩

/-- A stream chunk with one choice whose delta carries one tool call. -/
def toolChunk (toolCall : ToolCall) : ChatCompletionStreamResponse :=
  ⟨[⟨⟨"", [toolCall]⟩, ""⟩]⟩

/-- A stream chunk without choices, as `Recv` returns it next to an error. -/
def emptyChunk : ChatCompletionStreamResponse := ⟨[]⟩

/-- A provider whose unary response has no choice and whose stream delivers a chunk
without choices after one text chunk. -/
def zeroChoiceClient : Client :=
  { CreateChatCompletion := fun _ => (⟨[], ⟨0, 0, 0, none⟩⟩, none),
    CreateChatCompletionStream := fun _ =>
      ([(textChunk "Hel", none), (emptyChunk, none), (textChunk "lo", none)], none) }

/-- A thread holding one user message. -/
def exampleThread : Thread := ⟨[⟨Role.user, [Content.text "hello"]⟩]⟩

/-- A context without observer. -/
def exampleContext : Context := ⟨none, "", ""⟩

/-- Values for the package constants. -/
def exampleDefaults : Defaults := ⟨1, 1⟩

/-- An argument-fragment delta: a tool call without id. -/
def fragmentCall (arguments : String) : ToolCall :=
  ⟨none, "", "", ⟨"", arguments⟩⟩

/-- The stream "Hel", "lo", start of call t1, one argument fragment, end of stream. -/
def helloToolScript : List RecvResult :=
  [(textChunk "Hel", none), (textChunk "lo", none),
   (toolChunk (mkToolCall "t1" "echo" "[1,"), none), (toolChunk (fragmentCall "2]"), none)]

/-- A stream with a fragment before any call, two calls with fragments, and a text delta
in between. -/
def twoCallScript : List RecvResult :=
  [(toolChunk (fragmentCall "lost"), none),
   (toolChunk (mkToolCall "t1" "echo" "[1,"), none),
   (textChunk "mid", none),
   (toolChunk (fragmentCall "2]"), none),
   (toolChunk (mkToolCall "t2" "nope" ""), none),
   (toolChunk (fragmentCall "x"), none),
   (toolChunk (fragmentCall "y"), none)]

/-- A provider that streams the given script. -/
def scriptClient (script : List RecvResult) : Client :=
  { CreateChatCompletion := exampleClient.CreateChatCompletion,
    CreateChatCompletionStream := fun _ => (script, none) }

/-- The example configuration with a stream callback and a provider streaming `script`. -/
def streamingOpenAI (script : List RecvResult) : OpenAI :=
  { exampleOpenAI with openAIClient := scriptClient script, streamCallbackFn := true }

/-- The request built from the example configuration and thread. -/
def exampleRequest : ChatCompletionRequest :=
  requestWithTools exampleDefaults exampleOpenAI exampleThread

/-- A cache that holds the answer lines "four" and "4" for every query. -/
def hitCache : cache.Cache :=
  { Get := fun _ => (⟨["four", "4"], [1, 2]⟩, none),
    Set := fun _ _ => none }

/-- A cache whose probe always misses, reporting the embedding of the query. -/
def missCache : cache.Cache :=
  { Get := fun _ => (⟨[], [1, 2]⟩, some ErrCacheMiss),
    Set := fun _ _ => none }

/-- A cache whose probe fails with an error that is not the cache-miss error. -/
def brokenCache : cache.Cache :=
  { Get := fun _ => (⟨[], []⟩, some (.errorf "connection refused")),
    Set := fun _ _ => none }

/-- A provider whose unary response asks for the tool call t1. -/
def toolCallClient : Client :=
  { CreateChatCompletion := fun _ =>
      (⟨[⟨"tool_calls", ⟨"", [mkToolCall "t1" "echo" "hi"]⟩⟩], ⟨0, 0, 0, none⟩⟩, none),
    CreateChatCompletionStream := fun _ => ([], none) }

/-- A configuration with a missing cache entry, no registered tool, and a provider that
asks for a tool call. -/
def toolCallNoRegistry : OpenAI :=
  { exampleOpenAI with
    openAIClient := toolCallClient, functions := [], cache := some missCache }

/-- A configuration with a missing cache entry, the echo tool, and a provider that asks for
a tool call. -/
def toolCallWithRegistry : OpenAI :=
  { exampleOpenAI with openAIClient := toolCallClient, cache := some missCache }

/-- A provider that fails on the unary call and on opening a stream. -/
def failingClient : Client :=
  { CreateChatCompletion := fun _ =>
      (⟨[], ⟨0, 0, 0, none⟩⟩, some (.errorf "connection reset")),
    CreateChatCompletionStream := fun _ => ([], some (.errorf "connection reset")) }

/-- A stream whose second receive fails: `Recv` returns an empty chunk and the error. -/
def brokenScript : List RecvResult :=
  [(textChunk "Hel", none), (emptyChunk, some (.errorf "connection reset"))]

/-- An observer whose hooks return the record and no error. -/
def quietObserver : observer.LLMObserver :=
  { Generation := fun record => (some record, none),
    GenerationEnd := fun record => (some record, none) }

/-- An observer whose `Generation` hook fails. -/
def failingObserver : observer.LLMObserver :=
  { Generation := fun _ => (none, some (.errorf "observer down")),
    GenerationEnd := fun record => (some record, none) }

/-- An observer whose `GenerationEnd` hook fails. -/
def failingEndObserver : observer.LLMObserver :=
  { Generation := fun record => (some record, none),
    GenerationEnd := fun _ => (none, some (.errorf "observer down")) }

/-- An observer whose `Generation` hook returns a nil record and no error. -/
def nilRecordObserver : observer.LLMObserver :=
  { Generation := fun _ => (none, none),
    GenerationEnd := fun record => (some record, none) }

/-- A configuration with a missing cache entry and a provider answering with the text
"four". -/
def textAnswerOpenAI : OpenAI :=
  { exampleOpenAI with
    openAIClient :=
      { CreateChatCompletion := fun _ => (⟨[⟨"stop", ⟨"four", []⟩⟩], ⟨0, 0, 0, none⟩⟩, none),
        CreateChatCompletionStream := fun _ => ([], none) },
    cache := some missCache }

/-- Three tool calls: an unregistered function, the echo tool failing on empty arguments,
and the echo tool succeeding. -/
def failingCalls : List ToolCall :=
  [mkToolCall "t1" "nope" "x", mkToolCall "t2" "echo" "", mkToolCall "t3" "echo" "ok"]

/-- A configuration with the echo tool, a missing cache entry, and a provider whose unary
response asks for the three calls of `failingCalls`. -/
def failingToolsOpenAI : OpenAI :=
  { exampleOpenAI with
    openAIClient :=
      { CreateChatCompletion := fun _ =>
          (⟨[⟨"tool_calls", ⟨"", failingCalls⟩⟩], ⟨0, 0, 0, none⟩⟩, none),
        CreateChatCompletionStream := fun _ => ([], none) },
    cache := some missCache }

/-- A configuration without cache whose provider answers the unary call with the text
"four" and reports usage counters with prompt-token details. -/
def usageOpenAI : OpenAI :=
  { exampleOpenAI with
    openAIClient :=
      { CreateChatCompletion := fun _ =>
          (⟨[⟨"stop", ⟨"four", []⟩⟩], ⟨12, 5, 17, some ⟨3, 4⟩⟩⟩, none),
        CreateChatCompletionStream := fun _ => ([], none) } }

/-! ## Theorems -/

/-! ### Tool dispatch -/

/-- The tool-role message `callTools` builds for one call. -/
theorem toolCallResultToThreadMessage_eq (toolCall : ToolCall) (result : String) :
    toolCallResultToThreadMessage toolCall result =
      ⟨Role.tool, [Content.toolResponse ⟨toolCall.ID, toolCall.Function.Name, result⟩]⟩ := by
  rfl

/-- The messages accumulated by the loop of `callTools`: one per call, after the ones
already accumulated. -/
theorem callTools_foldl_messages (o : OpenAI) (toolCalls : List ToolCall)
    (acc : List Message × List Event) :
    (toolCalls.foldl (callToolsStep o) acc).1 =
      acc.1 ++ toolCalls.map
        (fun tc => toolCallResultToThreadMessage tc (toolResultText (callTool o tc).1)) := by
  induction toolCalls generalizing acc with
  | nil => simp
  | cons tc rest ih =>
    rw [List.foldl_cons, ih]
    simp [callToolsStep]

/-- The messages of `callTools` when both the registry and the call list are non-empty. -/
theorem callTools_messages_of_nonempty (o : OpenAI) (toolCalls : List ToolCall)
    (hf : o.functions.length ≠ 0) (hc : toolCalls.length ≠ 0) :
    (callTools o toolCalls).1 =
      toolCalls.map
        (fun tc => toolCallResultToThreadMessage tc (toolResultText (callTool o tc).1)) := by
  unfold callTools
  have h : (o.functions.length == 0 || toolCalls.length == 0) = false := by
    simp [hf, hc]
  rw [h]
  simp [callTools_foldl_messages]

/-- The messages of `callTools` when the registry or the call list is empty. -/
theorem callTools_messages_of_empty (o : OpenAI) (toolCalls : List ToolCall)
    (h : o.functions.length = 0 ∨ toolCalls.length = 0) :
    (callTools o toolCalls).1 = [] := by
  unfold callTools
  have h' : (o.functions.length == 0 || toolCalls.length == 0) = true := by
    rcases h with h | h <;> simp [h]
  rw [h']
  rfl

/-- C1: `callTools` returns no messages when the registry is empty or there are no calls;
otherwise it returns exactly as many messages as there are calls, and the i-th message is
the tool-role message carrying the id of the i-th call and the result of dispatching it. -/
theorem callTools_one_message_per_call (o : OpenAI) (toolCalls : List ToolCall) :
    ((o.functions.length = 0 ∨ toolCalls.length = 0) → (callTools o toolCalls).1 = []) ∧
    (¬ (o.functions.length = 0 ∨ toolCalls.length = 0) →
      (callTools o toolCalls).1.length = toolCalls.length ∧
      ∀ (i : Nat) (tc : ToolCall), toolCalls[i]? = some tc →
        (callTools o toolCalls).1[i]? =
          some ⟨Role.tool, [Content.toolResponse
            ⟨tc.ID, tc.Function.Name, toolResultText (callTool o tc).1⟩]⟩) := by
  refine ⟨callTools_messages_of_empty o toolCalls, ?_⟩
  intro h
  have hf : o.functions.length ≠ 0 := fun hf => h (Or.inl hf)
  have hc : toolCalls.length ≠ 0 := fun hc => h (Or.inr hc)
  rw [callTools_messages_of_nonempty o toolCalls hf hc]
  refine ⟨by simp, ?_⟩
  intro i tc hi
  simp [List.getElem?_map, hi, toolCallResultToThreadMessage_eq]

/-- C1 at a concrete input: two calls against a registry with one tool, the second call
naming an unregistered function; and the same calls against an empty registry. -/
theorem callTools_one_message_per_call_witness :
    ¬ (exampleOpenAI.functions.length = 0 ∨ exampleCalls.length = 0) ∧
    (callTools exampleOpenAI exampleCalls).1.length = 2 ∧
    (callTools exampleOpenAI exampleCalls).1[0]? =
      some ⟨Role.tool, [Content.toolResponse ⟨"t1", "echo", "hi"⟩]⟩ ∧
    (callTools exampleOpenAI exampleCalls).1[1]? =
      some ⟨Role.tool, [Content.toolResponse ⟨"t2", "nope", "error: unknown function nope"⟩]⟩ ∧
    (callTools { exampleOpenAI with functions := [] } exampleCalls).1 = [] := by
  have hne : ¬ (exampleOpenAI.functions.length = 0 ∨ exampleCalls.length = 0) := by decide
  have h := (callTools_one_message_per_call exampleOpenAI exampleCalls).2 hne
  exact ⟨hne, h.1, h.2 0 (mkToolCall "t1" "echo" "hi") rfl,
    h.2 1 (mkToolCall "t2" "nope" "x") rfl,
    (callTools_one_message_per_call { exampleOpenAI with functions := [] } exampleCalls).1
      (Or.inl rfl)⟩

/-! ### Zero-choice responses -/

/-- The unary call fails and leaves the thread alone when the response has no choice. -/
theorem generate_zero_choices (o : OpenAI) (t : Thread) (request : ChatCompletionRequest)
    (h : (o.openAIClient.CreateChatCompletion request).1.Choices = []) :
    (generate o t request).err.isSome = true ∧ (generate o t request).thread = t := by
  unfold generate
  cases hErr : (o.openAIClient.CreateChatCompletion request).2 with
  | some err => simp [hErr]
  | none => simp [hErr, h]

/-- The loop of `stream` fails at a chunk without choices when no receive before it
signalled the end of the stream. -/
theorem streamLoop_zero_choices (o : OpenAI) (before after : List RecvResult)
    (zero : RecvResult) (st : StreamState)
    (hBefore : ∀ r ∈ before, errorsIs r.2 ioEOF = false)
    (hZero : zero.1.Choices = []) (hNotEnd : errorsIs zero.2 ioEOF = false) :
    (streamLoop o (before ++ zero :: after) st).1.1.isSome = true := by
  induction before generalizing st with
  | nil =>
    rcases zero with ⟨response, errRecv⟩
    simp only [List.nil_append, streamLoop]
    simp only at hZero hNotEnd
    simp [hNotEnd, hZero]
  | cons r rest ih =>
    rcases r with ⟨response, errRecv⟩
    have hr : errorsIs errRecv ioEOF = false := hBefore (response, errRecv) (by simp)
    have hrest : ∀ r ∈ rest, errorsIs r.2 ioEOF = false :=
      fun r hmem => hBefore r (List.mem_cons_of_mem _ hmem)
    simp only [List.cons_append, streamLoop, hr]
    by_cases hc : response.Choices.length = 0
    · simp [hc]
    · simp [hc, ih (streamStep st response) hrest]

/-- The streamed call fails and leaves the thread alone when a chunk without choices is
received before the end of the stream. -/
theorem stream_zero_choices (o : OpenAI) (t : Thread) (request : ChatCompletionRequest)
    (before after : List RecvResult) (zero : RecvResult)
    (hScript : (o.openAIClient.CreateChatCompletionStream request).1 = before ++ zero :: after)
    (hBefore : ∀ r ∈ before, errorsIs r.2 ioEOF = false)
    (hZero : zero.1.Choices = []) (hNotEnd : errorsIs zero.2 ioEOF = false) :
    (stream o t request).err.isSome = true ∧ (stream o t request).thread = t := by
  unfold stream
  cases hErr : (o.openAIClient.CreateChatCompletionStream request).2 with
  | some err => simp [hErr]
  | none =>
    have hLoop := streamLoop_zero_choices o before after zero StreamState.init
      hBefore hZero hNotEnd
    rw [← hScript] at hLoop
    cases hL : (streamLoop o (o.openAIClient.CreateChatCompletionStream request).1
        StreamState.init).1.1 with
    | some err => simp [hErr, hL]
    | none => rw [hL] at hLoop; simp at hLoop

/-- The observation hooks make no provider call. -/
theorem startObserveGeneration_no_provider (o : OpenAI) (ctx : Context) (t : Thread) :
    ∀ e ∈ (startObserveGeneration o ctx t).2, e.isProvider = false := by
  unfold startObserveGeneration StartObserveGeneration
  cases ctx.observerInstance with
  | none => simp
  | some ob =>
    simp only
    split <;> simp [Event.isProvider]

/-- The cache probe invokes the cache's `Get` once and nothing else. -/
theorem getCache_trace (c : cache.Cache) (t : Thread) :
    (getCache c t).2.2 = [Event.cacheGet (stringsJoin t.UserQuery "\n")] := by
  unfold getCache
  simp only
  split <;> rfl

/-- The cache probe makes no provider call and, when it fails, leaves the thread alone. -/
theorem getCache_of_error (c : cache.Cache) (t : Thread) (err : Err)
    (h : (getCache c t).1.2 = some err) :
    (getCache c t).2.1 = t ∧
    (getCache c t).2.2 = [Event.cacheGet (stringsJoin t.UserQuery "\n")] ∧
    (c.Get (stringsJoin t.UserQuery "\n")).2 = some err := by
  unfold getCache at h ⊢
  cases hGet : (c.Get (stringsJoin t.UserQuery "\n")).2 with
  | none => simp [hGet] at h
  | some e => simp [hGet] at h ⊢; exact h

/-- After the cache probe, a generation that reaches the provider and gets a response
without choices (unary), or a chunk without choices (streamed), fails with the thread
as it was. -/
theorem generateAfterProbe_zero_choices (d : Defaults) (o : OpenAI) (ctx : Context)
    (t : Thread) (cached : Option (cache.Cache × cache.Result))
    (hReached : ∃ e ∈ (generateAfterProbe d o ctx t cached).trace, e.isProvider = true)
    (hZero : (if o.streamCallbackFn then stream o t (requestWithTools d o t)
        else generate o t (requestWithTools d o t)).err.isSome = true ∧
      (if o.streamCallbackFn then stream o t (requestWithTools d o t)
        else generate o t (requestWithTools d o t)).thread = t) :
    (generateAfterProbe d o ctx t cached).err.isSome = true ∧
    (generateAfterProbe d o ctx t cached).thread = t := by
  unfold generateAfterProbe at hReached ⊢
  cases hStart : (startObserveGeneration o ctx t).1.2 with
  | some err =>
    exfalso
    simp only [hStart] at hReached
    obtain ⟨e, he, hp⟩ := hReached
    rw [startObserveGeneration_no_provider o ctx t e he] at hp
    exact Bool.noConfusion hp
  | none =>
    obtain ⟨hErr, hThread⟩ := hZero
    cases hGen : (if o.streamCallbackFn then stream o t (requestWithTools d o t)
        else generate o t (requestWithTools d o t)).err with
    | none => rw [hGen] at hErr; simp at hErr
    | some err => simp [hStart, hGen, hThread]

/-- The unary call never panics. -/
theorem generate_no_panic (o : OpenAI) (t : Thread) (request : ChatCompletionRequest)
    (text : String) : (generate o t request).err ≠ some (.panic text) := by
  unfold generate
  simp only
  split
  · simp
  · split
    · simp
    · split <;> simp

/-- The loop of `stream` never panics. -/
theorem streamLoop_no_panic (o : OpenAI) (script : List RecvResult) (st : StreamState)
    (text : String) : (streamLoop o script st).1.1 ≠ some (.panic text) := by
  induction script generalizing st with
  | nil => simp [streamLoop]
  | cons r rest ih =>
    rcases r with ⟨response, errRecv⟩
    simp only [streamLoop]
    split
    · simp
    · split
      · simp
      · exact ih _

/-- The streamed call never panics. -/
theorem stream_no_panic (o : OpenAI) (t : Thread) (request : ChatCompletionRequest)
    (text : String) : (stream o t request).err ≠ some (.panic text) := by
  unfold stream
  simp only
  split
  · simp
  · split
    · rename_i err hErr
      intro h
      simp only [Option.some.injEq] at h
      exact streamLoop_no_panic o _ _ text (h ▸ hErr)
    · simp

/-- After the cache probe, a run ends in a panic only once the provider round trip has
succeeded. -/
theorem generateAfterProbe_panic (d : Defaults) (o : OpenAI) (ctx : Context) (t : Thread)
    (cached : Option (cache.Cache × cache.Result)) (text : String)
    (h : (generateAfterProbe d o ctx t cached).err = some (.panic text)) :
    (if o.streamCallbackFn then stream o t (requestWithTools d o t)
      else generate o t (requestWithTools d o t)).err = none := by
  have hGen : ∀ e, (if o.streamCallbackFn then stream o t (requestWithTools d o t)
      else generate o t (requestWithTools d o t)).err = some e → e ≠ .panic text := by
    intro e he hp
    subst hp
    split at he
    · exact stream_no_panic o t _ text he
    · exact generate_no_panic o t _ text he
  unfold generateAfterProbe at h
  simp only at h
  split at h
  · simp at h
  · split at h
    · rename_i e he
      simp only [Option.some.injEq] at h
      exact absurd h (hGen e he)
    · rename_i hNone
      exact hNone

/-- A run of `Generate` ends in a panic only once the provider round trip on the thread
has succeeded. -/
theorem Generate_panic (d : Defaults) (o : OpenAI) (ctx : Context) (t : Thread)
    (text : String) (h : (Generate d o ctx t).err = some (.panic text)) :
    (if o.streamCallbackFn then stream o t (requestWithTools d o t)
      else generate o t (requestWithTools d o t)).err = none := by
  unfold Generate at h
  cases hCache : o.cache with
  | none =>
    simp only [hCache] at h
    exact generateAfterProbe_panic d o ctx t none text h
  | some c =>
    simp only [hCache] at h
    cases hProbe : (getCache c t).1.2 with
    | none => simp [hProbe] at h
    | some err =>
      obtain ⟨hT, -, -⟩ := getCache_of_error c t err hProbe
      simp only [hProbe, hT] at h
      split at h
      · simp at h
      · exact generateAfterProbe_panic d o ctx t _ text h

/-- C2: a provider response without choices makes the call fail with the thread's messages
as they were before the call.  This holds for the unary helper `generate`, for the streamed
helper `stream` when a chunk without choices arrives at any position before the end of the
stream, and for `Generate` whenever the run reaches the provider; in each case the call
returns its error (it does not end in a panic). -/
theorem zero_choices_fail_thread_unchanged (d : Defaults) (o : OpenAI) (ctx : Context)
    (t : Thread) :
    (∀ request, (o.openAIClient.CreateChatCompletion request).1.Choices = [] →
      (generate o t request).err.isSome = true ∧ (generate o t request).thread = t ∧
      ∀ text, (generate o t request).err ≠ some (.panic text)) ∧
    (∀ request (before after : List RecvResult) (zero : RecvResult),
      (o.openAIClient.CreateChatCompletionStream request).1 = before ++ zero :: after →
      (∀ r ∈ before, errorsIs r.2 ioEOF = false) →
      zero.1.Choices = [] → errorsIs zero.2 ioEOF = false →
      (stream o t request).err.isSome = true ∧ (stream o t request).thread = t ∧
      ∀ text, (stream o t request).err ≠ some (.panic text)) ∧
    ((∃ e ∈ (Generate d o ctx t).trace, e.isProvider = true) →
      ((o.streamCallbackFn = false ∧
          (o.openAIClient.CreateChatCompletion (requestWithTools d o t)).1.Choices = []) ∨
        (o.streamCallbackFn = true ∧
          ∃ (before after : List RecvResult) (zero : RecvResult),
            (o.openAIClient.CreateChatCompletionStream (requestWithTools d o t)).1
              = before ++ zero :: after ∧
            (∀ r ∈ before, errorsIs r.2 ioEOF = false) ∧
            zero.1.Choices = [] ∧ errorsIs zero.2 ioEOF = false)) →
      (Generate d o ctx t).err.isSome = true ∧ (Generate d o ctx t).thread = t ∧
      ∀ text, (Generate d o ctx t).err ≠ some (.panic text)) := by
  refine ⟨fun request h =>
      ⟨(generate_zero_choices o t request h).1, (generate_zero_choices o t request h).2,
        fun text => generate_no_panic o t request text⟩,
    fun request before after zero hs hb hz hn =>
      ⟨(stream_zero_choices o t request before after zero hs hb hz hn).1,
        (stream_zero_choices o t request before after zero hs hb hz hn).2,
        fun text => stream_no_panic o t request text⟩, ?_⟩
  intro hReached hZero
  have hHelper : (if o.streamCallbackFn then stream o t (requestWithTools d o t)
        else generate o t (requestWithTools d o t)).err.isSome = true ∧
      (if o.streamCallbackFn then stream o t (requestWithTools d o t)
        else generate o t (requestWithTools d o t)).thread = t := by
    rcases hZero with ⟨hs, hz⟩ | ⟨hs, before, after, zero, hScript, hb, hz, hn⟩
    · simp only [hs, Bool.false_eq_true, if_false]
      exact generate_zero_choices o t _ hz
    · simp only [hs, if_true]
      exact stream_zero_choices o t _ before after zero hScript hb hz hn
  have hNoPanic : ∀ text, (Generate d o ctx t).err ≠ some (.panic text) := by
    intro text hPanic
    have hOk := Generate_panic d o ctx t text hPanic
    rw [hOk] at hHelper
    exact Bool.noConfusion hHelper.1
  suffices hMain : (Generate d o ctx t).err.isSome = true ∧ (Generate d o ctx t).thread = t from
    ⟨hMain.1, hMain.2, hNoPanic⟩
  unfold Generate at hReached ⊢
  cases hCache : o.cache with
  | none =>
    simp only [hCache] at hReached ⊢
    exact generateAfterProbe_zero_choices d o ctx t none hReached hHelper
  | some c =>
    simp only [hCache] at hReached ⊢
    cases hProbe : (getCache c t).1.2 with
    | none =>
      exfalso
      simp only [hProbe] at hReached
      obtain ⟨e, he, hp⟩ := hReached
      rw [getCache_trace] at he
      simp at he
      simp [he, Event.isProvider] at hp
    | some err =>
      obtain ⟨hT, hTrace, -⟩ := getCache_of_error c t err hProbe
      simp only [hProbe, hT, hTrace] at hReached ⊢
      by_cases hMiss : errorsIs (some err) ErrCacheMiss = true
      · simp only [hMiss, Bool.not_true, Bool.false_eq_true, if_false] at hReached ⊢
        have hReached' : ∃ e ∈ (generateAfterProbe d o ctx t
            (some (c, (getCache c t).1.1))).trace, e.isProvider = true := by
          obtain ⟨e, he, hp⟩ := hReached
          simp only [List.mem_append, List.mem_singleton] at he
          rcases he with he | he
          · simp [he, Event.isProvider] at hp
          · exact ⟨e, he, hp⟩
        exact generateAfterProbe_zero_choices d o ctx t _ hReached' hHelper
      · exfalso
        simp only [hMiss, Bool.not_eq_true] at hReached
        simp only [Bool.not_eq_true] at hMiss
        simp [hMiss, Event.isProvider] at hReached

/-- C2 at concrete inputs: a unary response without choices, and a stream whose second
chunk has no choices. -/
theorem zero_choices_fail_thread_unchanged_witness :
    ((Generate exampleDefaults { exampleOpenAI with openAIClient := zeroChoiceClient }
        exampleContext exampleThread).err.isSome = true ∧
      (Generate exampleDefaults { exampleOpenAI with openAIClient := zeroChoiceClient }
        exampleContext exampleThread).thread = exampleThread) ∧
    ((Generate exampleDefaults
        { exampleOpenAI with openAIClient := zeroChoiceClient, streamCallbackFn := true }
        exampleContext exampleThread).err.isSome = true ∧
      (Generate exampleDefaults
        { exampleOpenAI with openAIClient := zeroChoiceClient, streamCallbackFn := true }
        exampleContext exampleThread).thread = exampleThread) := by
  have hUnary := (zero_choices_fail_thread_unchanged exampleDefaults
      { exampleOpenAI with openAIClient := zeroChoiceClient } exampleContext exampleThread).2.2
      ⟨Event.createChatCompletion _, List.mem_cons_self _ _, rfl⟩ (Or.inl ⟨rfl, rfl⟩)
  have hStream := (zero_choices_fail_thread_unchanged exampleDefaults
      { exampleOpenAI with openAIClient := zeroChoiceClient, streamCallbackFn := true }
      exampleContext exampleThread).2.2
      ⟨Event.createChatCompletionStream _, List.mem_cons_self _ _, rfl⟩
      (Or.inr ⟨rfl, [(textChunk "Hel", none)], [(textChunk "lo", none)], (emptyChunk, none),
        rfl, by decide, rfl, rfl⟩)
  exact ⟨⟨hUnary.1, hUnary.2.1⟩, ⟨hStream.1, hStream.2.1⟩⟩

/-! ### Streaming: the loop over received chunks -/

/-- The state of the loop of `stream` after a sequence of chunks. -/
theorem streamLoop_of_received (o : OpenAI) (script : List RecvResult) (st : StreamState)
    (h : ∀ r ∈ script, receivedChunk r) :
    (streamLoop o script st).1 =
      (none, (handleEndOfStream o [] (script.foldl (fun s r => streamStep s r.1) st).content
        (script.foldl (fun s r => streamStep s r.1) st).currentToolCall
        (script.foldl (fun s r => streamStep s r.1) st).allToolCalls).1) := by
  induction script generalizing st with
  | nil => simp [streamLoop]
  | cons r rest ih =>
    rcases r with ⟨response, errRecv⟩
    obtain ⟨hc, he⟩ := h (response, errRecv) (by simp)
    have hrest : ∀ r ∈ rest, receivedChunk r := fun r hr => h r (List.mem_cons_of_mem _ hr)
    simp only at hc he
    have hlen : (response.Choices.length == 0) = false := by
      cases hC : response.Choices with
      | nil => exact absurd hC hc
      | cons a b => simp
    simp only [streamLoop, he, hlen, Bool.false_eq_true, if_false, List.foldl_cons]
    exact ih (streamStep st response) hrest

/-- A clean end after the received chunks: the loop of `stream` does the same whether the
end of the stream is an explicit `io.EOF` receive or the exhausted script. -/
theorem streamLoop_append_end (o : OpenAI) (script rest : List RecvResult) (st : StreamState)
    (h : ∀ r ∈ script, receivedChunk r) (hEnd : endsStream rest = true) :
    streamLoop o (script ++ rest) st = streamLoop o script st := by
  induction script generalizing st with
  | nil =>
    cases rest with
    | nil => rfl
    | cons r more =>
      rcases r with ⟨response, errRecv⟩
      simp only [endsStream] at hEnd
      simp [streamLoop, hEnd]
  | cons r more ih =>
    rcases r with ⟨response, errRecv⟩
    obtain ⟨hc, he⟩ := h (response, errRecv) (by simp)
    have hmore : ∀ r ∈ more, receivedChunk r := fun r hr => h r (List.mem_cons_of_mem _ hr)
    simp only at hc he
    have ih' := ih (streamStep st response) hmore
    simp only [List.cons_append, streamLoop, he, Bool.false_eq_true, if_false]
    rw [show more.append rest = more ++ rest from rfl, ih']

/-- The tool dispatch never invokes the stream callback. -/
theorem callTools_sinkCalls (o : OpenAI) (toolCalls : List ToolCall) :
    sinkCalls (callTools o toolCalls).2 = [] := by
  have hfold : ∀ (calls : List ToolCall) (acc : List Message × List Event),
      sinkCalls acc.2 = [] → sinkCalls (calls.foldl (callToolsStep o) acc).2 = [] := by
    intro calls
    induction calls with
    | nil => intro acc h; simpa using h
    | cons tc rest ih =>
      intro acc h
      rw [List.foldl_cons]
      apply ih
      unfold callToolsStep callTool
      simp only [sinkCalls, List.filterMap_append] at h ⊢
      rw [h]
      cases o.functions.lookup tc.Function.Name with
      | none => simp
      | some fn =>
        simp only
        split <;> simp
  unfold callTools
  split
  · rfl
  · exact hfold toolCalls ([], []) rfl

/-- What the stream callback receives at the end of the stream: the marker `EOS`, once. -/
theorem handleEndOfStream_sinkCalls (o : OpenAI) (messages : List Message) (content : String)
    (currentToolCall : ToolCall) (allToolCalls : List ToolCall) :
    sinkCalls (handleEndOfStream o messages content currentToolCall allToolCalls).2 = [EOS] := by
  unfold handleEndOfStream
  simp only
  split
  · have h := callTools_sinkCalls o (allToolCalls ++ [currentToolCall])
    simp only [sinkCalls] at h ⊢
    simp [List.filterMap_cons, h]
  · simp [sinkCalls]

/-- What the stream callback receives over a sequence of chunks: the delta content of
each chunk, in order, then `EOS`. -/
theorem streamLoop_sinkCalls (o : OpenAI) (script : List RecvResult) (st : StreamState)
    (h : ∀ r ∈ script, receivedChunk r) :
    sinkCalls (streamLoop o script st).2 = script.map (fun r => deltaContent r.1) ++ [EOS] := by
  induction script generalizing st with
  | nil =>
    have hEnd := handleEndOfStream_sinkCalls o [] st.content st.currentToolCall st.allToolCalls
    simp only [sinkCalls] at hEnd
    simp [streamLoop, sinkCalls, hEnd]
  | cons r rest ih =>
    rcases r with ⟨response, errRecv⟩
    obtain ⟨hc, he⟩ := h (response, errRecv) (by simp)
    have hrest : ∀ r ∈ rest, receivedChunk r := fun r hr => h r (List.mem_cons_of_mem _ hr)
    simp only at hc he
    have hlen : (response.Choices.length == 0) = false := by
      cases hC : response.Choices with
      | nil => exact absurd hC hc
      | cons a b => simp
    have ih' := ih (streamStep st response) hrest
    simp only [sinkCalls] at ih'
    simp [streamLoop, he, hlen, sinkCalls, ih']

/-! ### Streaming: text and tool-call reconstruction -/

/-- One chunk extends the text by its delta content unless it is a tool-call chunk. -/
theorem streamStep_content (st : StreamState) (response : ChatCompletionStreamResponse) :
    (streamStep st response).content =
      st.content ++ (if isStreamToolCallResponse response then "" else deltaContent response) := by
  unfold streamStep
  by_cases h : isStreamToolCallResponse response = true
  · simp only [h, if_true]
    split <;> simp
  · simp only [h, Bool.false_eq_true, if_false]
    unfold deltaContent
    cases response.Choices <;> simp

/-- A chunk that starts a call commits the open call, if any, and opens the new one. -/
theorem streamStep_start (st : StreamState) (response : ChatCompletionStreamResponse)
    (toolCall : ToolCall) (h : deltaKind response = .start toolCall) :
    (streamStep st response).currentToolCall = toolCall ∧
    (streamStep st response).allToolCalls =
      (if st.currentToolCall.ID = "" then st.allToolCalls
       else st.allToolCalls ++ [st.currentToolCall]) ∧
    toolCall.ID ≠ "" := by
  unfold deltaKind at h
  unfold streamStep isStreamToolCallResponse handleStreamToolCallResponse
  cases hC : response.Choices with
  | nil => simp [hC] at h
  | cons choice others =>
    cases hT : choice.Delta.ToolCalls with
    | nil => simp [hC, hT] at h
    | cons first more =>
      simp only [hC, hT] at h
      by_cases hID : first.ID = ""
      · simp [hID] at h
      · simp only [hID, if_false, DeltaKind.start.injEq] at h
        subst h
        by_cases hCur : st.currentToolCall.ID = "" <;> simp [hT, hID, hCur]

/-- A chunk that continues a call appends its fragment to the arguments of the open call. -/
theorem streamStep_fragment (st : StreamState) (response : ChatCompletionStreamResponse)
    (arguments : String) (h : deltaKind response = .fragment arguments) :
    (streamStep st response).currentToolCall = st.currentToolCall.extend arguments ∧
    (streamStep st response).allToolCalls = st.allToolCalls := by
  unfold deltaKind at h
  unfold streamStep isStreamToolCallResponse handleStreamToolCallResponse
  cases hC : response.Choices with
  | nil => simp [hC] at h
  | cons choice others =>
    cases hT : choice.Delta.ToolCalls with
    | nil => simp [hC, hT] at h
    | cons first more =>
      simp only [hC, hT] at h
      by_cases hID : first.ID = ""
      · simp only [hID, if_true, DeltaKind.fragment.injEq] at h
        subst h
        simp [hT, hID, ToolCall.extend]
      · simp [hID] at h

/-- A chunk without tool-call delta leaves the tool-call variables alone. -/
theorem streamStep_other (st : StreamState) (response : ChatCompletionStreamResponse)
    (h : deltaKind response = .other) :
    (streamStep st response).currentToolCall = st.currentToolCall ∧
    (streamStep st response).allToolCalls = st.allToolCalls := by
  unfold deltaKind at h
  unfold streamStep isStreamToolCallResponse handleStreamToolCallResponse
  cases hC : response.Choices with
  | nil => simp
  | cons choice others =>
    cases hT : choice.Delta.ToolCalls with
    | nil =>
      by_cases hF : choice.FinishReason = FinishReasonToolCalls <;> simp [hT, hF]
    | cons first more =>
      simp only [hC, hT] at h
      by_cases hID : first.ID = "" <;> simp [hID] at h

/-- The text accumulated over a sequence of chunks. -/
theorem foldl_streamStep_content (script : List RecvResult) (st : StreamState) :
    (script.foldl (fun s r => streamStep s r.1) st).content =
      st.content ++ accumulatedText (script.map (fun r => r.1)) := by
  induction script generalizing st with
  | nil => simp [accumulatedText]
  | cons r rest ih =>
    simp only [List.foldl_cons, List.map_cons, accumulatedText]
    rw [ih, streamStep_content, String.append_assoc]

/-- The tool calls the end of the stream records from the loop variables: the committed
calls and the open call when a call is open, none otherwise. -/
theorem foldl_streamStep_toolCalls (script : List RecvResult) (st : StreamState)
    (hInv : st.currentToolCall.ID = "" → st.allToolCalls = []) :
    ((script.foldl (fun s r => streamStep s r.1) st).currentToolCall.ID = "" →
      toolCallRecords (script.map (fun r => r.1)) = [] ∧ st.currentToolCall.ID = "") ∧
    ((script.foldl (fun s r => streamStep s r.1) st).currentToolCall.ID ≠ "" →
      (script.foldl (fun s r => streamStep s r.1) st).allToolCalls ++
          [(script.foldl (fun s r => streamStep s r.1) st).currentToolCall] =
        (if st.currentToolCall.ID = "" then []
         else st.allToolCalls ++
          [st.currentToolCall.extend (fragmentsBeforeNextStart (script.map (fun r => r.1)))])
        ++ toolCallRecords (script.map (fun r => r.1))) := by
  induction script generalizing st with
  | nil =>
    refine ⟨fun h => ⟨rfl, h⟩, fun h => ?_⟩
    simp only [List.foldl_nil] at h
    simp [h, toolCallRecords, fragmentsBeforeNextStart, ToolCall.extend]
  | cons r rest ih =>
    simp only [List.foldl_cons, List.map_cons]
    cases hK : deltaKind r.1 with
    | start toolCall =>
      obtain ⟨hCur, hAll, hID⟩ := streamStep_start st r.1 toolCall hK
      have hInv' : (streamStep st r.1).currentToolCall.ID = "" →
          (streamStep st r.1).allToolCalls = [] := by
        intro h; rw [hCur] at h; exact absurd h hID
      obtain ⟨ih1, ih2⟩ := ih (streamStep st r.1) hInv'
      refine ⟨fun h => ?_, fun h => ?_⟩
      · have := (ih1 h).2
        rw [hCur] at this
        exact absurd this hID
      · rw [ih2 h, hCur, hAll]
        simp only [hID, if_false, toolCallRecords, fragmentsBeforeNextStart, hK]
        by_cases hOld : st.currentToolCall.ID = ""
        · simp [hOld, hInv hOld]
        · simp [hOld, ToolCall.extend]
    | fragment arguments =>
      obtain ⟨hCur, hAll⟩ := streamStep_fragment st r.1 arguments hK
      have hSame : (streamStep st r.1).currentToolCall.ID = st.currentToolCall.ID := by
        rw [hCur]; rfl
      have hInv' : (streamStep st r.1).currentToolCall.ID = "" →
          (streamStep st r.1).allToolCalls = [] := by
        intro h; rw [hAll]; exact hInv (hSame ▸ h)
      obtain ⟨ih1, ih2⟩ := ih (streamStep st r.1) hInv'
      refine ⟨fun h => ?_, fun h => ?_⟩
      · obtain ⟨hR, hE⟩ := ih1 h
        exact ⟨by simpa [toolCallRecords, hK] using hR, hSame ▸ hE⟩
      · rw [ih2 h, hSame, hAll, hCur]
        simp [toolCallRecords, fragmentsBeforeNextStart, hK, ToolCall.extend,
          String.append_assoc]
    | other =>
      obtain ⟨hCur, hAll⟩ := streamStep_other st r.1 hK
      have hInv' : (streamStep st r.1).currentToolCall.ID = "" →
          (streamStep st r.1).allToolCalls = [] := by
        intro h; rw [hAll]; rw [hCur] at h; exact hInv h
      obtain ⟨ih1, ih2⟩ := ih (streamStep st r.1) hInv'
      refine ⟨fun h => ?_, fun h => ?_⟩
      · obtain ⟨hR, hE⟩ := ih1 h
        exact ⟨by simpa [toolCallRecords, hK] using hR, hCur ▸ hE⟩
      · rw [ih2 h, hCur, hAll]
        simp [toolCallRecords, fragmentsBeforeNextStart, hK]

/-- The messages built at the end of a stream, in terms of the text and the tool-call
records of its chunks. -/
theorem handleEndOfStream_of_script (o : OpenAI) (script : List RecvResult) :
    (handleEndOfStream o []
      (script.foldl (fun s r => streamStep s r.1) StreamState.init).content
      (script.foldl (fun s r => streamStep s r.1) StreamState.init).currentToolCall
      (script.foldl (fun s r => streamStep s r.1) StreamState.init).allToolCalls).1 =
    streamMessages o (accumulatedText (script.map (fun r => r.1)))
      (toolCallRecords (script.map (fun r => r.1))) := by
  have hContent := foldl_streamStep_content script StreamState.init
  obtain ⟨hNone, hSome⟩ := foldl_streamStep_toolCalls script StreamState.init (fun _ => rfl)
  have hInit : StreamState.init.content = "" := rfl
  rw [hInit, String.empty_append] at hContent
  have hInitID : StreamState.init.currentToolCall.ID = "" := rfl
  unfold handleEndOfStream streamMessages
  rw [hContent]
  by_cases hID : (script.foldl (fun s r => streamStep s r.1) StreamState.init).currentToolCall.ID
      = ""
  · rw [(hNone hID).1]
    simp [hID, NewAssistantMessage, NewTextContent, Message.AddContent]
  · have hRec := hSome hID
    simp only [hInitID, if_true, List.nil_append] at hRec
    have hne : toolCallRecords (script.map (fun r => r.1)) ≠ [] := by
      rw [← hRec]; simp
    simp only [bne_iff_ne, ne_eq, hID, not_false_eq_true, if_true, hne, if_false, hRec]
    by_cases hText : (accumulatedText (script.map (fun r => r.1))).length > 0
    · simp [hText, NewAssistantMessage, NewTextContent, Message.AddContent]
    · simp [hText]

/-- The streamed call on a sequence of received chunks that ends cleanly: it succeeds and
appends the messages determined by the text and the tool-call records of the chunks. -/
theorem stream_of_received (o : OpenAI) (t : Thread) (request : ChatCompletionRequest)
    (script rest : List RecvResult)
    (hOpen : o.openAIClient.CreateChatCompletionStream request = (script ++ rest, none))
    (h : ∀ r ∈ script, receivedChunk r) (hEnd : endsStream rest = true) :
    (stream o t request).err = none ∧
    (stream o t request).thread.Messages =
      t.Messages ++ streamMessages o (accumulatedText (script.map (fun r => r.1)))
        (toolCallRecords (script.map (fun r => r.1))) ∧
    sinkCalls (stream o t request).trace = script.map (fun r => deltaContent r.1) ++ [EOS] := by
  have hLoop := streamLoop_of_received o script StreamState.init h
  have hSink := streamLoop_sinkCalls o script StreamState.init h
  rw [handleEndOfStream_of_script] at hLoop
  have h1 : (streamLoop o script StreamState.init).1.1 = none := by rw [hLoop]
  have h2 : (streamLoop o script StreamState.init).1.2 =
      streamMessages o (accumulatedText (script.map (fun r => r.1)))
        (toolCallRecords (script.map (fun r => r.1))) := by rw [hLoop]
  unfold stream
  simp only [hOpen, streamLoop_append_end o script rest StreamState.init h hEnd, h1, h2,
    Thread.AddMessages]
  refine ⟨trivial, trivial, ?_⟩
  simp only [sinkCalls] at hSink ⊢
  simp [List.filterMap_cons, hSink]

/-- C4: for a stream whose chunks each have a choice and that ends cleanly, the tool calls
recorded at the end of the stream are the records of the chunk sequence: one per chunk
that starts a call (non-empty id), in arrival order, each with the arguments of its
starting delta followed by the fragments of the id-less tool-call deltas that arrive before
the next start.  The call succeeds, and the recorded list is the one committed from the
loop variables and the one the appended tool-call message and the dispatch are built from. -/
theorem stream_records_tool_calls (o : OpenAI) (t : Thread) (request : ChatCompletionRequest)
    (script rest : List RecvResult)
    (hOpen : o.openAIClient.CreateChatCompletionStream request = (script ++ rest, none))
    (h : ∀ r ∈ script, receivedChunk r) (hEnd : endsStream rest = true) :
    (stream o t request).err = none ∧
    (if (script.foldl (fun s r => streamStep s r.1) StreamState.init).currentToolCall.ID = ""
      then []
      else (script.foldl (fun s r => streamStep s r.1) StreamState.init).allToolCalls ++
        [(script.foldl (fun s r => streamStep s r.1) StreamState.init).currentToolCall])
      = toolCallRecords (script.map (fun r => r.1)) ∧
    (stream o t request).thread.Messages =
      t.Messages ++ streamMessages o (accumulatedText (script.map (fun r => r.1)))
        (toolCallRecords (script.map (fun r => r.1))) := by
  obtain ⟨hErr, hMsgs, -⟩ := stream_of_received o t request script rest hOpen h hEnd
  refine ⟨hErr, ?_, hMsgs⟩
  obtain ⟨hNone, hSome⟩ := foldl_streamStep_toolCalls script StreamState.init (fun _ => rfl)
  have hInitID : StreamState.init.currentToolCall.ID = "" := rfl
  by_cases hID : (script.foldl (fun s r => streamStep s r.1) StreamState.init).currentToolCall.ID
      = ""
  · simp only [hID, if_true]
    exact (hNone hID).1.symm
  · simp only [hID, if_false]
    have hRec := hSome hID
    simpa only [hInitID, if_true, List.nil_append] using hRec

/-- C4 at a concrete stream: a fragment before any call is dropped, and two calls are
recorded with their fragments, in order. -/
theorem stream_records_tool_calls_witness :
    toolCallRecords (twoCallScript.map (fun r => r.1)) =
      [mkToolCall "t1" "echo" "[1,2]", mkToolCall "t2" "nope" "xy"] ∧
    (stream (streamingOpenAI twoCallScript) exampleThread exampleRequest).err = none ∧
    (stream (streamingOpenAI twoCallScript) exampleThread exampleRequest).thread.Messages =
      exampleThread.Messages ++
        [⟨Role.assistant, [Content.text "mid"]⟩,
         ⟨Role.assistant, [Content.toolCall [⟨"t1", "echo", "[1,2]"⟩, ⟨"t2", "nope", "xy"⟩]]⟩,
         ⟨Role.tool, [Content.toolResponse ⟨"t1", "echo", "[1,2]"⟩]⟩,
         ⟨Role.tool, [Content.toolResponse ⟨"t2", "nope", "error: unknown function nope"⟩]⟩] := by
  have h := stream_records_tool_calls (streamingOpenAI twoCallScript) exampleThread
    exampleRequest twoCallScript [] rfl (by decide) rfl
  exact ⟨by decide, h.1, h.2.2.trans (by decide)⟩

/-- C10: for a stream of n chunks that each have a choice, followed by a clean end of the
stream, the stream callback is invoked n + 1 times: the i-th time with the delta content of
the i-th chunk, the last time with `EOS`. -/
theorem stream_callback_calls (o : OpenAI) (t : Thread) (request : ChatCompletionRequest)
    (script rest : List RecvResult)
    (hOpen : o.openAIClient.CreateChatCompletionStream request = (script ++ rest, none))
    (h : ∀ r ∈ script, receivedChunk r) (hEnd : endsStream rest = true) :
    sinkCalls (stream o t request).trace = script.map (fun r => deltaContent r.1) ++ [EOS] ∧
    (sinkCalls (stream o t request).trace).length = script.length + 1 ∧
    (∀ (i : Nat) (r : RecvResult), script[i]? = some r →
      (sinkCalls (stream o t request).trace)[i]? = some (deltaContent r.1)) ∧
    (sinkCalls (stream o t request).trace)[script.length]? = some "\x00" := by
  obtain ⟨-, -, hSink⟩ := stream_of_received o t request script rest hOpen h hEnd
  rw [hSink]
  refine ⟨rfl, by simp, ?_, ?_⟩
  · intro i r hi
    have hlt : i < script.length := by
      rcases Nat.lt_or_ge i script.length with hlt | hge
      · exact hlt
      · rw [List.getElem?_eq_none hge] at hi; exact Option.noConfusion hi
    rw [List.getElem?_append_left (by simpa using hlt)]
    simp [List.getElem?_map, hi]
  · rw [List.getElem?_append_right (by simp)]
    simp [EOS]

/-- C10 at the stream "Hel", "lo", start of call t1, one fragment, ended by an explicit
`io.EOF` receive: five invocations. -/
theorem stream_callback_calls_witness :
    sinkCalls (stream (streamingOpenAI (helloToolScript ++ [(emptyChunk, some ioEOF)]))
      exampleThread exampleRequest).trace = ["Hel", "lo", "", "", "\x00"] := by
  have h := stream_callback_calls (streamingOpenAI (helloToolScript ++ [(emptyChunk, some ioEOF)]))
    exampleThread exampleRequest helloToolScript [(emptyChunk, some ioEOF)] rfl (by decide) rfl
  exact h.1.trans (by decide)

/-! ### Streaming: text followed by a tool call -/

/-- The text of a sequence of chunks is the text of its parts, in order. -/
theorem accumulatedText_append (a b : List ChatCompletionStreamResponse) :
    accumulatedText (a ++ b) = accumulatedText a ++ accumulatedText b := by
  induction a with
  | nil => simp [accumulatedText]
  | cons r rest ih => simp [accumulatedText, ih, String.append_assoc]

/-- A chunk that is not a tool-call chunk carries no tool-call delta. -/
theorem deltaKind_of_not_toolCall (response : ChatCompletionStreamResponse)
    (h : isStreamToolCallResponse response = false) : deltaKind response = .other := by
  unfold isStreamToolCallResponse at h
  unfold deltaKind
  cases hC : response.Choices with
  | nil => rfl
  | cons choice others =>
    cases hT : choice.Delta.ToolCalls with
    | nil => simp [hT]
    | cons first more => simp [hC, hT] at h

/-- A chunk that carries a tool-call delta is a tool-call chunk. -/
theorem isStreamToolCallResponse_of_deltaKind (response : ChatCompletionStreamResponse)
    (h : deltaKind response ≠ .other) : isStreamToolCallResponse response = true := by
  cases hB : isStreamToolCallResponse response with
  | true => rfl
  | false => exact absurd (deltaKind_of_not_toolCall response hB) h

/-- Text chunks contribute no tool-call record. -/
theorem toolCallRecords_texts_append (texts rest : List ChatCompletionStreamResponse)
    (h : ∀ r ∈ texts, isStreamToolCallResponse r = false) :
    toolCallRecords (texts ++ rest) = toolCallRecords rest := by
  induction texts with
  | nil => rfl
  | cons r more ih =>
    have hr := deltaKind_of_not_toolCall r (h r (by simp))
    simp only [List.cons_append, toolCallRecords, hr]
    exact ih (fun x hx => h x (List.mem_cons_of_mem _ hx))

/-- Argument fragments contribute no record of their own and no text. -/
theorem fragments_records_text (frags : List ChatCompletionStreamResponse)
    (h : ∀ r ∈ frags, ∃ f, deltaKind r = .fragment f) :
    toolCallRecords frags = [] ∧ accumulatedText frags = "" := by
  induction frags with
  | nil => exact ⟨rfl, rfl⟩
  | cons r more ih =>
    obtain ⟨f, hf⟩ := h r (by simp)
    obtain ⟨ih1, ih2⟩ := ih (fun x hx => h x (List.mem_cons_of_mem _ hx))
    have hTool : isStreamToolCallResponse r = true :=
      isStreamToolCallResponse_of_deltaKind r (by rw [hf]; exact DeltaKind.noConfusion)
    simp [toolCallRecords, accumulatedText, hf, ih1, ih2, hTool]

/-- C3, as the code has it: for a stream of text deltas followed by a delta that starts a
tool call and by argument fragments, ending cleanly, the call succeeds and appends, in
order, the assistant text message carrying the accumulated text (when that text is not
empty), the tool-call record message whose one record has the arguments of the start
followed by the fragments, and the results of the dispatch. -/
theorem stream_text_then_tool_call (o : OpenAI) (t : Thread) (request : ChatCompletionRequest)
    (texts frags rest : List RecvResult) (start : RecvResult) (toolCall : ToolCall)
    (hOpen : o.openAIClient.CreateChatCompletionStream request
      = ((texts ++ start :: frags) ++ rest, none))
    (hEnd : endsStream rest = true)
    (hTexts : ∀ r ∈ texts, receivedChunk r ∧ isStreamToolCallResponse r.1 = false)
    (hStart : receivedChunk start ∧ deltaKind start.1 = .start toolCall)
    (hFrags : ∀ r ∈ frags, receivedChunk r ∧ ∃ f, deltaKind r.1 = .fragment f) :
    (stream o t request).err = none ∧
    (stream o t request).thread.Messages =
      t.Messages ++
        ((if (accumulatedText (texts.map (fun r => r.1))).length > 0
          then [⟨Role.assistant, [Content.text (accumulatedText (texts.map (fun r => r.1)))]⟩]
          else []) ++
        toolCallsToToolCallMessage
            [toolCall.extend (fragmentsBeforeNextStart (frags.map (fun r => r.1)))] ::
          (callTools o
            [toolCall.extend (fragmentsBeforeNextStart (frags.map (fun r => r.1)))]).1) := by
  have hAll : ∀ r ∈ texts ++ start :: frags, receivedChunk r := by
    intro r hr
    rcases List.mem_append.mp hr with h | h
    · exact (hTexts r h).1
    · rcases List.mem_cons.mp h with h | h
      · rw [h]; exact hStart.1
      · exact (hFrags r h).1
  obtain ⟨hErr, hMsgs, -⟩ := stream_of_received o t request _ rest hOpen hAll hEnd
  refine ⟨hErr, ?_⟩
  rw [hMsgs]
  have hT : ∀ r ∈ texts.map (fun r => r.1), isStreamToolCallResponse r = false := by
    intro r hr
    obtain ⟨x, hx, rfl⟩ := List.mem_map.mp hr
    exact (hTexts x hx).2
  have hF : ∀ r ∈ frags.map (fun r => r.1), ∃ f, deltaKind r = .fragment f := by
    intro r hr
    obtain ⟨x, hx, rfl⟩ := List.mem_map.mp hr
    exact (hFrags x hx).2
  obtain ⟨hFR, hFT⟩ := fragments_records_text _ hF
  have hStartTool : isStreamToolCallResponse start.1 = true :=
    isStreamToolCallResponse_of_deltaKind start.1 (by rw [hStart.2]; exact DeltaKind.noConfusion)
  have hRecords : toolCallRecords ((texts ++ start :: frags).map (fun r => r.1)) =
      [toolCall.extend (fragmentsBeforeNextStart (frags.map (fun r => r.1)))] := by
    rw [List.map_append, toolCallRecords_texts_append _ _ hT]
    simp [toolCallRecords, hStart.2, hFR]
  have hText : accumulatedText ((texts ++ start :: frags).map (fun r => r.1)) =
      accumulatedText (texts.map (fun r => r.1)) := by
    rw [List.map_append, accumulatedText_append]
    simp [accumulatedText, hStartTool, hFT]
  rw [hRecords, hText]
  simp [streamMessages]

/-- C3 as amended, at the stream "Hel", "lo", start of call t1, one fragment: the text
message "Hello" comes first, then the record of t1 with the joined arguments, then the
result of t1. -/
theorem stream_text_then_tool_call_witness :
    (stream (streamingOpenAI helloToolScript) exampleThread exampleRequest).err = none ∧
    (stream (streamingOpenAI helloToolScript) exampleThread exampleRequest).thread.Messages =
      exampleThread.Messages ++
        [⟨Role.assistant, [Content.text "Hello"]⟩,
         ⟨Role.assistant, [Content.toolCall [⟨"t1", "echo", "[1,2]"⟩]]⟩,
         ⟨Role.tool, [Content.toolResponse ⟨"t1", "echo", "[1,2]"⟩]⟩] := by
  have h := stream_text_then_tool_call (streamingOpenAI helloToolScript) exampleThread
    exampleRequest [(textChunk "Hel", none), (textChunk "lo", none)]
    [(toolChunk (fragmentCall "2]"), none)] [] (toolChunk (mkToolCall "t1" "echo" "[1,"), none)
    (mkToolCall "t1" "echo" "[1,") rfl rfl (by decide) (by decide)
    (by
      intro r hr
      rw [List.mem_singleton] at hr
      subst hr
      exact ⟨by decide, "2]", rfl⟩)
  exact ⟨h.1, h.2.trans (by decide)⟩

/-- C3 as stated fails on the stream "Hel", "lo", start of call t1, one fragment: the
appended messages are not just the tool-call record message followed by the tool results,
because the assistant text message "Hello" is appended before them. -/
theorem stream_text_then_tool_call_counterexample :
    (stream (streamingOpenAI helloToolScript) exampleThread exampleRequest).err = none ∧
    (⟨Role.assistant, [Content.text "Hello"]⟩ : Message) ∈
      (stream (streamingOpenAI helloToolScript) exampleThread exampleRequest).thread.Messages ∧
    ¬ ((stream (streamingOpenAI helloToolScript) exampleThread exampleRequest).thread.Messages =
      exampleThread.Messages ++
        toolCallsToToolCallMessage [mkToolCall "t1" "echo" "[1,2]"] ::
          (callTools (streamingOpenAI helloToolScript) [mkToolCall "t1" "echo" "[1,2]"]).1) := by
  decide

/-! ### Cache short-circuit -/

/-- An error is in its own chain. -/
theorem Err.Is_self (e : Err) : e.Is e = true := by
  cases e <;> simp [Err.Is]

/-- C8: when a cache is configured and the probe hits, `Generate` returns no error, appends
exactly one message, the assistant message whose single text content is the cached answer
lines joined by newline, and its only collaborator call is the probe itself: no provider
call, no observer call, no cache write. -/
theorem Generate_cache_hit (d : Defaults) (o : OpenAI) (ctx : Context) (t : Thread)
    (c : cache.Cache) (hCache : o.cache = some c)
    (hHit : (c.Get (stringsJoin t.UserQuery "\n")).2 = none) :
    (Generate d o ctx t).err = none ∧
    (Generate d o ctx t).thread.Messages =
      t.Messages ++ [⟨Role.assistant,
        [Content.text (stringsJoin (c.Get (stringsJoin t.UserQuery "\n")).1.Answer "\n")]⟩] ∧
    (Generate d o ctx t).trace = [Event.cacheGet (stringsJoin t.UserQuery "\n")] ∧
    (∀ e ∈ (Generate d o ctx t).trace,
      e.isProvider = false ∧ e.isObserver = false ∧ e.isCacheSet = false) := by
  have hGet : getCache c t =
      (((c.Get (stringsJoin t.UserQuery "\n")).1, none),
        t.AddMessage (NewAssistantMessage.AddContent
          (NewTextContent (stringsJoin (c.Get (stringsJoin t.UserQuery "\n")).1.Answer "\n"))),
        [Event.cacheGet (stringsJoin t.UserQuery "\n")]) := by
    unfold getCache
    simp only [hHit]
  have hRun : Generate d o ctx t = ⟨none,
      t.AddMessage (NewAssistantMessage.AddContent
        (NewTextContent (stringsJoin (c.Get (stringsJoin t.UserQuery "\n")).1.Answer "\n"))),
      [Event.cacheGet (stringsJoin t.UserQuery "\n")]⟩ := by
    unfold Generate
    simp only [hCache, hGet]
  rw [hRun]
  refine ⟨rfl, rfl, rfl, ?_⟩
  intro e he
  rw [List.mem_singleton] at he
  subst he
  exact ⟨rfl, rfl, rfl⟩

/-- C8 at a concrete input: the cache holds the lines "four" and "4". -/
theorem Generate_cache_hit_witness :
    (Generate exampleDefaults { exampleOpenAI with cache := some hitCache } exampleContext
      exampleThread).err = none ∧
    (Generate exampleDefaults { exampleOpenAI with cache := some hitCache } exampleContext
      exampleThread).thread.Messages =
        exampleThread.Messages ++ [⟨Role.assistant, [Content.text "four\n4"]⟩] ∧
    (Generate exampleDefaults { exampleOpenAI with cache := some hitCache } exampleContext
      exampleThread).trace = [Event.cacheGet "hello"] := by
  have h := Generate_cache_hit exampleDefaults { exampleOpenAI with cache := some hitCache }
    exampleContext exampleThread hitCache rfl rfl
  exact ⟨h.1, h.2.1.trans (by decide), h.2.2.1.trans (by decide)⟩

/-- C9: when a cache is configured and the probe fails with an error that is not the
cache-miss error, `Generate` returns that error wrapped with `ErrOpenAIChat`, its only
collaborator call is the probe (no provider call), and the thread is unchanged; and a run
with a cache reaches the provider only when the probe reported the cache-miss error. -/
theorem Generate_cache_error (d : Defaults) (o : OpenAI) (ctx : Context) (t : Thread)
    (c : cache.Cache) (hCache : o.cache = some c) :
    (∀ err, (c.Get (stringsJoin t.UserQuery "\n")).2 = some err →
      errorsIs (some err) ErrCacheMiss = false →
      (Generate d o ctx t).err = some (.wrapBoth ErrOpenAIChat err) ∧
      errorsIs (Generate d o ctx t).err err = true ∧
      errorsIs (Generate d o ctx t).err ErrOpenAIChat = true ∧
      (Generate d o ctx t).thread = t ∧
      (Generate d o ctx t).trace = [Event.cacheGet (stringsJoin t.UserQuery "\n")] ∧
      (∀ e ∈ (Generate d o ctx t).trace, e.isProvider = false)) ∧
    ((∃ e ∈ (Generate d o ctx t).trace, e.isProvider = true) →
      errorsIs (c.Get (stringsJoin t.UserQuery "\n")).2 ErrCacheMiss = true) := by
  constructor
  · intro err hErr hNotMiss
    have hGet : getCache c t = (((c.Get (stringsJoin t.UserQuery "\n")).1, some err), t,
        [Event.cacheGet (stringsJoin t.UserQuery "\n")]) := by
      unfold getCache
      simp only [hErr]
    have hRun : Generate d o ctx t = ⟨some (.wrapBoth ErrOpenAIChat err), t,
        [Event.cacheGet (stringsJoin t.UserQuery "\n")]⟩ := by
      unfold Generate
      simp only [hCache, hGet, hNotMiss, Bool.not_false, if_true]
    rw [hRun]
    refine ⟨rfl, ?_, ?_, rfl, rfl, ?_⟩
    · simp [errorsIs, Err.Is, Err.Is_self]
    · simp [errorsIs, Err.Is, ErrOpenAIChat]
    · intro e he
      rw [List.mem_singleton] at he
      subst he
      rfl
  · intro hReached
    cases hGetErr : (c.Get (stringsJoin t.UserQuery "\n")).2 with
    | none =>
      exfalso
      have hGet : getCache c t =
          (((c.Get (stringsJoin t.UserQuery "\n")).1, none),
            t.AddMessage (NewAssistantMessage.AddContent (NewTextContent
              (stringsJoin (c.Get (stringsJoin t.UserQuery "\n")).1.Answer "\n"))),
            [Event.cacheGet (stringsJoin t.UserQuery "\n")]) := by
        unfold getCache
        simp only [hGetErr]
      unfold Generate at hReached
      simp only [hCache, hGet] at hReached
      obtain ⟨e, he, hp⟩ := hReached
      rw [List.mem_singleton] at he
      subst he
      exact Bool.noConfusion hp
    | some err =>
      cases hMiss : errorsIs (some err) ErrCacheMiss with
      | true => rfl
      | false =>
        exfalso
        have hGet : getCache c t = (((c.Get (stringsJoin t.UserQuery "\n")).1, some err), t,
            [Event.cacheGet (stringsJoin t.UserQuery "\n")]) := by
          unfold getCache
          simp only [hGetErr]
        unfold Generate at hReached
        simp only [hCache, hGet, hMiss, Bool.not_false, if_true] at hReached
        obtain ⟨e, he, hp⟩ := hReached
        rw [List.mem_singleton] at he
        subst he
        exact Bool.noConfusion hp

/-- C9 at a concrete input: the probe fails with "connection refused". -/
theorem Generate_cache_error_witness :
    (Generate exampleDefaults { exampleOpenAI with cache := some brokenCache } exampleContext
      exampleThread).err = some (.wrapBoth ErrOpenAIChat (.errorf "connection refused")) ∧
    (Generate exampleDefaults { exampleOpenAI with cache := some brokenCache } exampleContext
      exampleThread).thread = exampleThread ∧
    (Generate exampleDefaults { exampleOpenAI with cache := some brokenCache } exampleContext
      exampleThread).trace = [Event.cacheGet "hello"] ∧
    errorsIs (missCache.Get "hello").2 ErrCacheMiss = true := by
  have h := (Generate_cache_error exampleDefaults { exampleOpenAI with cache := some brokenCache }
    exampleContext exampleThread brokenCache rfl).1 (.errorf "connection refused") rfl rfl
  have h2 := (Generate_cache_error exampleDefaults { exampleOpenAI with cache := some missCache }
    exampleContext exampleThread missCache rfl).2
    ⟨Event.createChatCompletion
      (requestWithTools exampleDefaults { exampleOpenAI with cache := some missCache }
        exampleThread), by decide, rfl⟩
  exact ⟨h.1, h.2.2.2.1, h.2.2.2.2.1.trans (by decide), h2⟩

/-! ### What each part of a call invokes -/

/-- The loop of `callTools` invokes nothing but tools. -/
theorem callTools_foldl_trace (o : OpenAI) (toolCalls : List ToolCall)
    (acc : List Message × List Event) (hAcc : ∀ e ∈ acc.2, e.isGeneration = true) :
    ∀ e ∈ (toolCalls.foldl (callToolsStep o) acc).2, e.isGeneration = true := by
  induction toolCalls generalizing acc with
  | nil => simpa using hAcc
  | cons tc rest ih =>
    rw [List.foldl_cons]
    apply ih
    intro e he
    unfold callToolsStep at he
    simp only [List.mem_append] at he
    rcases he with he | he
    · exact hAcc e he
    · unfold callTool at he
      cases hL : o.functions.lookup tc.Function.Name with
      | none => simp [hL] at he
      | some fn =>
        simp only [hL] at he
        split at he <;> simp at he <;> (subst he; rfl)

/-- The tool dispatch invokes nothing but tools. -/
theorem callTools_trace (o : OpenAI) (toolCalls : List ToolCall) :
    ∀ e ∈ (callTools o toolCalls).2, e.isGeneration = true := by
  unfold callTools
  split
  · simp
  · exact callTools_foldl_trace o toolCalls ([], []) (by simp)

/-- The unary call invokes the provider, the usage callback and tools only. -/
theorem generate_trace (o : OpenAI) (t : Thread) (request : ChatCompletionRequest) :
    ∀ e ∈ (generate o t request).trace, e.isGeneration = true := by
  intro e he
  unfold generate at he
  have hUsage : ∀ u, ∀ x ∈ setUsageMetadata o u, x.isGeneration = true := by
    intro u x hx
    unfold setUsageMetadata at hx
    split at hx <;> simp at hx
    subst hx; rfl
  simp only at he
  split at he
  · simp at he; subst he; rfl
  · split at he
    · simp only [List.mem_cons] at he
      rcases he with he | he
      · subst he; rfl
      · exact hUsage _ e he
    · split at he
      · simp only [List.mem_cons, List.cons_append, List.mem_append] at he
        rcases he with he | he | he
        · subst he; rfl
        · exact hUsage _ e he
        · exact callTools_trace o _ e he
      · simp only [List.mem_cons] at he
        rcases he with he | he
        · subst he; rfl
        · exact hUsage _ e he

/-- The loop of `stream` invokes the provider, the stream callback and tools only. -/
theorem streamLoop_trace (o : OpenAI) (script : List RecvResult) (st : StreamState) :
    ∀ e ∈ (streamLoop o script st).2, e.isGeneration = true := by
  have hEnd : ∀ (content : String) (cur : ToolCall) (all : List ToolCall),
      ∀ e ∈ (handleEndOfStream o [] content cur all).2, e.isGeneration = true := by
    intro content cur all e he
    unfold handleEndOfStream at he
    simp only at he
    split at he
    · simp only [List.mem_cons] at he
      rcases he with he | he
      · subst he; rfl
      · exact callTools_trace o _ e he
    · simp at he; subst he; rfl
  induction script generalizing st with
  | nil =>
    intro e he
    simp only [streamLoop, List.mem_cons] at he
    rcases he with he | he
    · subst he; rfl
    · exact hEnd _ _ _ e he
  | cons r rest ih =>
    rcases r with ⟨response, errRecv⟩
    intro e he
    simp only [streamLoop] at he
    split at he
    · simp only [List.mem_cons] at he
      rcases he with he | he
      · subst he; rfl
      · exact hEnd _ _ _ e he
    · split at he
      · simp at he; subst he; rfl
      · simp only [List.mem_cons] at he
        rcases he with he | he | he
        · subst he; rfl
        · subst he; rfl
        · exact ih _ e he

/-- The streamed call invokes the provider, the stream callback and tools only. -/
theorem stream_trace (o : OpenAI) (t : Thread) (request : ChatCompletionRequest) :
    ∀ e ∈ (stream o t request).trace, e.isGeneration = true := by
  intro e he
  unfold stream at he
  simp only at he
  split at he
  · simp at he; subst he; rfl
  · split at he <;>
    · simp only [List.mem_cons] at he
      rcases he with he | he
      · subst he; rfl
      · exact streamLoop_trace o _ _ e he

/-- The start hook invokes nothing but the observer. -/
theorem startObserveGeneration_trace (o : OpenAI) (ctx : Context) (t : Thread) :
    ∀ e ∈ (startObserveGeneration o ctx t).2, e.isObserver = true := by
  unfold startObserveGeneration StartObserveGeneration
  cases ctx.observerInstance with
  | none => simp
  | some ob =>
    simp only
    split <;> simp [Event.isObserver]

/-- The end hook invokes nothing but the observer. -/
theorem stopObserveGeneration_trace (ctx : Context) (generation : Option observer.Generation)
    (messages : List Message) :
    ∀ e ∈ (stopObserveGeneration ctx generation messages).2, e.isObserver = true := by
  unfold stopObserveGeneration StopObserveGeneration
  cases ctx.observerInstance with
  | none => simp
  | some ob =>
    cases generation with
    | none => simp
    | some g => simp [Event.isObserver]

/-- The cache write happens only when the last message of the thread is an assistant
message with contents. -/
theorem setCache_trace (c : cache.Cache) (t : Thread) (cacheResult : cache.Result) :
    ∀ e ∈ (setCache c t cacheResult).2,
      ∃ m, t.LastMessage = some m ∧ m.Role = Role.assistant ∧ m.Contents ≠ [] := by
  intro e he
  unfold setCache at he
  cases hLast : t.LastMessage with
  | none => simp [hLast] at he
  | some m =>
    simp only [hLast] at he
    split at he
    · simp at he
    · rename_i hGuard
      simp only [Bool.or_eq_true, bne_iff_ne, ne_eq, beq_iff_eq, not_or, not_not] at hGuard
      refine ⟨m, rfl, hGuard.1, ?_⟩
      intro hc
      apply hGuard.2
      rw [hc]; rfl

/-- The invocations of the part of `Generate` after the probe: observer calls, the calls of
the round trip, and the cache write on the final thread. -/
theorem generateAfterProbe_trace (d : Defaults) (o : OpenAI) (ctx : Context) (t : Thread)
    (cached : Option (cache.Cache × cache.Result)) :
    ∀ e ∈ (generateAfterProbe d o ctx t cached).trace,
      e.isObserver = true ∨ e.isGeneration = true ∨
      ∃ c r, cached = some (c, r) ∧
        e ∈ (setCache c (generateAfterProbe d o ctx t cached).thread r).2 := by
  intro e he
  have hStart := startObserveGeneration_trace o ctx t
  have hGen : ∀ x ∈ (if o.streamCallbackFn then stream o t (requestWithTools d o t)
      else generate o t (requestWithTools d o t)).trace, x.isGeneration = true := by
    intro x hx
    split at hx
    · exact stream_trace o t _ x hx
    · exact generate_trace o t _ x hx
  have hStop := stopObserveGeneration_trace ctx
  unfold generateAfterProbe at he ⊢
  simp only at he ⊢
  split at he
  · exact Or.inl (hStart e he)
  · split at he
    · simp only [List.mem_append] at he
      rcases he with he | he
      · exact Or.inl (hStart e he)
      · exact Or.inr (Or.inl (hGen e he))
    · split at he
      · simp only [List.mem_append] at he
        rcases he with (he | he) | he
        · exact Or.inl (hStart e he)
        · exact Or.inr (Or.inl (hGen e he))
        · exact Or.inl (hStop _ _ e he)
      · simp only [List.mem_append] at he
        rcases he with (he | he) | he
        · exact Or.inl (hStart e he)
        · exact Or.inr (Or.inl (hGen e he))
        · exact Or.inl (hStop _ _ e he)
      · split at he
        · simp only [List.mem_append] at he
          rcases he with (he | he) | he
          · exact Or.inl (hStart e he)
          · exact Or.inr (Or.inl (hGen e he))
          · exact Or.inl (hStop _ _ e he)
        · rename_i c cacheResult
          split at he <;>
          · simp only [List.mem_append] at he
            rcases he with ((he | he) | he) | he
            · exact Or.inl (hStart e he)
            · exact Or.inr (Or.inl (hGen e he))
            · exact Or.inl (hStop _ _ e he)
            · refine Or.inr (Or.inr ⟨c, cacheResult, rfl, ?_⟩)
              exact he

/-! ### Cache write -/

/-- No cache probe, observer call or round-trip call is a cache write. -/
theorem Event.not_cacheSet_of_kind (e : Event)
    (h : e.isObserver = true ∨ e.isGeneration = true) : e.isCacheSet = false := by
  cases e <;> simp_all [Event.isObserver, Event.isGeneration, Event.isCacheSet]

/-- A cache write in a run of `Generate` means that the last message of the resulting
thread is an assistant message with contents. -/
theorem Generate_cacheSet_last_message (d : Defaults) (o : OpenAI) (ctx : Context)
    (t : Thread) (e : Event) (he : e ∈ (Generate d o ctx t).trace)
    (hSet : e.isCacheSet = true) :
    ∃ m, (Generate d o ctx t).thread.LastMessage = some m ∧ m.Role = Role.assistant ∧
      m.Contents ≠ [] := by
  have hLive : ∀ (t' : Thread) (cached : Option (cache.Cache × cache.Result)),
      e ∈ (generateAfterProbe d o ctx t' cached).trace →
      ∃ m, (generateAfterProbe d o ctx t' cached).thread.LastMessage = some m ∧
        m.Role = Role.assistant ∧ m.Contents ≠ [] := by
    intro t' cached hMem
    rcases generateAfterProbe_trace d o ctx t' cached e hMem with h | h | ⟨c, r, -, h⟩
    · rw [Event.not_cacheSet_of_kind e (Or.inl h)] at hSet
      exact Bool.noConfusion hSet
    · rw [Event.not_cacheSet_of_kind e (Or.inr h)] at hSet
      exact Bool.noConfusion hSet
    · exact setCache_trace c _ r e h
  unfold Generate at he ⊢
  cases hCache : o.cache with
  | none =>
    simp only [hCache] at he ⊢
    exact hLive t none he
  | some c =>
    simp only [hCache] at he ⊢
    have hProbe : e ∉ (getCache c t).2.2 := by
      rw [getCache_trace]
      intro hMem
      rw [List.mem_singleton] at hMem
      subst hMem
      exact Bool.noConfusion hSet
    cases hErr : (getCache c t).1.2 with
    | none =>
      simp only [hErr] at he
      exact absurd he hProbe
    | some err =>
      simp only [hErr] at he ⊢
      cases hMiss : errorsIs (some err) ErrCacheMiss with
      | false =>
        simp only [hMiss, Bool.not_false, if_true] at he
        exact absurd he hProbe
      | true =>
        simp only [hMiss, Bool.not_true, Bool.false_eq_true, if_false, List.mem_append] at he ⊢
        rcases he with he | he
        · exact absurd he hProbe
        · exact hLive _ _ he

/-- Whenever the thread's last message after the call is a tool result (a tool-role
message), the generation call performs no cache write. -/
theorem Generate_no_cache_write_after_tool_result (d : Defaults) (o : OpenAI) (ctx : Context)
    (t : Thread) (m : Message)
    (hLast : (Generate d o ctx t).thread.LastMessage = some m)
    (hTool : m.Role = Role.tool) :
    ∀ e ∈ (Generate d o ctx t).trace, e.isCacheSet = false := by
  intro e he
  cases hSet : e.isCacheSet with
  | false => rfl
  | true =>
    obtain ⟨m', hm', hRole, -⟩ := Generate_cacheSet_last_message d o ctx t e he hSet
    rw [hLast] at hm'
    cases hm'
    rw [hTool] at hRole
    exact Role.noConfusion hRole

/-- C5 on the code: the cache's `Set` is invoked for an answer that carries a tool call.
With a cache miss, no tool registered and a response that asks for a tool call, the call
succeeds, the tool-call record is the last message of the thread, and `Set` is invoked with
the embedding of the probe and the empty string as the answer: the loop of `setCache`
discards the texts it collected at the first content that is not text, and the write
follows all the same.  With the tool registered the last message is the tool result and
nothing is written. -/
theorem Generate_writes_empty_answer_after_tool_call :
    (Generate exampleDefaults toolCallNoRegistry exampleContext exampleThread).err = none ∧
    (Generate exampleDefaults toolCallNoRegistry exampleContext exampleThread).thread.LastMessage
      = some (toolCallsToToolCallMessage [mkToolCall "t1" "echo" "hi"]) ∧
    Event.cacheSet [1, 2] "" ∈
      (Generate exampleDefaults toolCallNoRegistry exampleContext exampleThread).trace ∧
    ¬ (∀ e ∈ (Generate exampleDefaults toolCallNoRegistry exampleContext exampleThread).trace,
      e.isCacheSet = false) ∧
    setCacheContents [Content.text "kept so far", Content.toolCall [⟨"t1", "echo", "hi"⟩]] []
      = [] ∧
    (setCache missCache ⟨[⟨Role.assistant,
        [Content.text "kept so far", Content.toolCall [⟨"t1", "echo", "hi"⟩]]⟩]⟩
      ⟨[], [1, 2]⟩).2 = [Event.cacheSet [1, 2] ""] ∧
    (Generate exampleDefaults toolCallWithRegistry exampleContext exampleThread).thread.LastMessage
      = some ⟨Role.tool, [Content.toolResponse ⟨"t1", "echo", "hi"⟩]⟩ ∧
    (∀ e ∈ (Generate exampleDefaults toolCallWithRegistry exampleContext exampleThread).trace,
      e.isCacheSet = false) := by
  decide

/-! ### Provider errors -/

/-- An error of the unary provider call is returned wrapped with `ErrOpenAIChat`. -/
theorem generate_provider_error (o : OpenAI) (t : Thread) (request : ChatCompletionRequest)
    (err : Err) (h : (o.openAIClient.CreateChatCompletion request).2 = some err) :
    (generate o t request).err = some (.wrapBoth ErrOpenAIChat err) ∧
    errorsIs (generate o t request).err err = true := by
  unfold generate
  simp [h, errorsIs, Err.Is, Err.Is_self]

/-- An error of opening the stream is returned wrapped with `ErrOpenAIChat`. -/
theorem stream_open_error (o : OpenAI) (t : Thread) (request : ChatCompletionRequest)
    (err : Err) (h : (o.openAIClient.CreateChatCompletionStream request).2 = some err) :
    (stream o t request).err = some (.wrapBoth ErrOpenAIChat err) ∧
    errorsIs (stream o t request).err err = true := by
  unfold stream
  simp [h, errorsIs, Err.Is, Err.Is_self]

/-- C7 on the code: the unary call and the opening of a stream return the provider's error
wrapped with `ErrOpenAIChat`, but an error of a receive in the middle of a stream is
never looked at.  With the empty chunk that comes with it the call returns the
"no choices returned" error, which does not wrap the provider's error; with a chunk that
has a choice the error is ignored and the call succeeds. -/
theorem stream_recv_error_not_wrapped :
    (generate { exampleOpenAI with openAIClient := failingClient } exampleThread
        exampleRequest).err = some (.wrapBoth ErrOpenAIChat (.errorf "connection reset")) ∧
    (stream { exampleOpenAI with openAIClient := failingClient } exampleThread
        exampleRequest).err = some (.wrapBoth ErrOpenAIChat (.errorf "connection reset")) ∧
    (stream (streamingOpenAI brokenScript) exampleThread exampleRequest).err
      = some (.wrapText ErrOpenAIChat "no choices returned") ∧
    errorsIs (stream (streamingOpenAI brokenScript) exampleThread exampleRequest).err
      (.errorf "connection reset") = false ∧
    (stream (streamingOpenAI [(textChunk "Hi", some (.errorf "connection reset"))])
      exampleThread exampleRequest).err = none := by
  decide

/-! ### Observation hooks -/

/-- Hooks that succeed: the start hook returns no error and invokes only the observer. -/
theorem startObserveGeneration_of_hooksSucceed (o : OpenAI) (ctx : Context) (t : Thread)
    (h : ctx.hooksSucceed) :
    (startObserveGeneration o ctx t).1.2 = none ∧
    withoutObserverCalls (startObserveGeneration o ctx t).2 = [] := by
  refine ⟨?_, ?_⟩
  · unfold startObserveGeneration StartObserveGeneration
    cases hOb : ctx.observerInstance with
    | none => rfl
    | some ob =>
      simp only
      rw [((h ob hOb).1 _).1]
  · unfold withoutObserverCalls
    rw [List.filter_eq_nil_iff]
    intro e he
    simp [startObserveGeneration_trace o ctx t e he]

/-- Hooks that succeed: the end hook, on the record the start hook gave, returns no error
and invokes only the observer. -/
theorem stopObserveGeneration_of_hooksSucceed (o : OpenAI) (ctx : Context) (t : Thread)
    (messages : List Message) (h : ctx.hooksSucceed) :
    (stopObserveGeneration ctx (startObserveGeneration o ctx t).1.1 messages).1
      = .returned none ∧
    withoutObserverCalls
      (stopObserveGeneration ctx (startObserveGeneration o ctx t).1.1 messages).2 = [] := by
  refine ⟨?_, ?_⟩
  · unfold stopObserveGeneration StopObserveGeneration startObserveGeneration
      StartObserveGeneration
    cases hOb : ctx.observerInstance with
    | none => rfl
    | some ob =>
      simp only
      obtain ⟨hErr, hRec⟩ := (h ob hOb).1
        { TraceID := ctx.traceID, ParentID := ctx.parentID, Name := "llm-" ++ o.Name,
          Model := o.model, ModelParameters := ⟨o.maxTokens, o.temperature⟩,
          Input := t.Messages, Output := [] }
      rw [hErr]
      simp only
      cases hG : (ob.Generation
        { TraceID := ctx.traceID, ParentID := ctx.parentID, Name := "llm-" ++ o.Name,
          Model := o.model, ModelParameters := ⟨o.maxTokens, o.temperature⟩,
          Input := t.Messages, Output := [] }).1 with
      | none => exact absurd hG hRec
      | some g =>
        simp only
        rw [(h ob hOb).2]
  · unfold withoutObserverCalls
    rw [List.filter_eq_nil_iff]
    intro e he
    simp [stopObserveGeneration_trace ctx _ messages e he]

/-- The run after the probe without its observer calls, when the hooks succeed: the error
and the thread of the round trip, and the calls of the round trip followed by the cache
write. -/
theorem generateAfterProbe_of_hooksSucceed (d : Defaults) (o : OpenAI) (ctx : Context)
    (t : Thread) (cached : Option (cache.Cache × cache.Result)) (h : ctx.hooksSucceed) :
    (generateAfterProbe d o ctx t cached).err =
      (generateAfterProbe d o ⟨none, "", ""⟩ t cached).err ∧
    (generateAfterProbe d o ctx t cached).thread =
      (generateAfterProbe d o ⟨none, "", ""⟩ t cached).thread ∧
    withoutObserverCalls (generateAfterProbe d o ctx t cached).trace =
      withoutObserverCalls (generateAfterProbe d o ⟨none, "", ""⟩ t cached).trace := by
  obtain ⟨hS1, hS2⟩ := startObserveGeneration_of_hooksSucceed o ctx t h
  have hP : ∀ msgs,
      (stopObserveGeneration ctx (startObserveGeneration o ctx t).1.1 msgs).1
        = .returned none ∧
      withoutObserverCalls
        (stopObserveGeneration ctx (startObserveGeneration o ctx t).1.1 msgs).2 = [] :=
    fun msgs => stopObserveGeneration_of_hooksSucceed o ctx t msgs h
  have hS0 : startObserveGeneration o ⟨none, "", ""⟩ t = ((none, none), []) := rfl
  have hP0 : ∀ g msgs, stopObserveGeneration ⟨none, "", ""⟩ g msgs = (.returned none, []) :=
    fun _ _ => rfl
  unfold generateAfterProbe
  simp only [hS1, hS0, hP0]
  cases hG : (if o.streamCallbackFn then stream o t (requestWithTools d o t)
      else generate o t (requestWithTools d o t)).err with
  | some err =>
    simp only [hG]
    refine ⟨trivial, trivial, ?_⟩
    unfold withoutObserverCalls at hS2 ⊢
    simp [List.filter_append, hS2]
  | none =>
    simp only [hG, (hP _).1]
    cases cached with
    | none =>
      have hP2 := (hP
        ((if o.streamCallbackFn then stream o t (requestWithTools d o t)
          else generate o t (requestWithTools d o t)).thread.Messages.drop t.Messages.length)).2
      unfold withoutObserverCalls at hS2 hP2 ⊢
      simp [List.filter_append, hS2, hP2]
    | some pair =>
      obtain ⟨c, r⟩ := pair
      have hP2 := (hP
        ((if o.streamCallbackFn then stream o t (requestWithTools d o t)
          else generate o t (requestWithTools d o t)).thread.Messages.drop t.Messages.length)).2
      unfold withoutObserverCalls at hS2 hP2 ⊢
      simp only
      split <;> simp [List.filter_append, hS2, hP2]

/-- The run of `Generate` without its observer calls, when the hooks succeed, is the run
without an observer. -/
theorem Generate_of_hooksSucceed (d : Defaults) (o : OpenAI) (ctx : Context) (t : Thread)
    (h : ctx.hooksSucceed) :
    (Generate d o ctx t).err = (Generate d o ⟨none, "", ""⟩ t).err ∧
    (Generate d o ctx t).thread = (Generate d o ⟨none, "", ""⟩ t).thread ∧
    withoutObserverCalls (Generate d o ctx t).trace =
      withoutObserverCalls (Generate d o ⟨none, "", ""⟩ t).trace := by
  unfold Generate
  cases o.cache with
  | none => exact generateAfterProbe_of_hooksSucceed d o ctx t none h
  | some c =>
    simp only
    cases (getCache c t).1.2 with
    | none => exact ⟨rfl, rfl, rfl⟩
    | some err =>
      simp only
      split
      · exact ⟨rfl, rfl, rfl⟩
      · obtain ⟨h1, h2, h3⟩ := generateAfterProbe_of_hooksSucceed d o ctx (getCache c t).2.1
          (some (c, (getCache c t).1.1)) h
        refine ⟨h1, h2, ?_⟩
        unfold withoutObserverCalls at h3 ⊢
        simp only [List.filter_append, h3]

/-- C6, as the code has it: for any two observers that are absent or whose hooks succeed
(they return no error, and the `Generation` hook returns a record rather than nil),
`Generate` returns the same error result, leaves the thread with the same messages, and
makes the same provider, tool, callback and cache calls.  Messages are immutable values,
as in the spec's data model, so a hook cannot change the thread through the messages it
is handed. -/
theorem Generate_observer_independent (d : Defaults) (o : OpenAI) (t : Thread)
    (ctx1 ctx2 : Context) (h1 : ctx1.hooksSucceed) (h2 : ctx2.hooksSucceed) :
    (Generate d o ctx1 t).err = (Generate d o ctx2 t).err ∧
    (Generate d o ctx1 t).thread = (Generate d o ctx2 t).thread ∧
    withoutObserverCalls (Generate d o ctx1 t).trace =
      withoutObserverCalls (Generate d o ctx2 t).trace := by
  obtain ⟨a1, a2, a3⟩ := Generate_of_hooksSucceed d o ctx1 t h1
  obtain ⟨b1, b2, b3⟩ := Generate_of_hooksSucceed d o ctx2 t h2
  exact ⟨a1.trans b1.symm, a2.trans b2.symm, a3.trans b3.symm⟩

/-- C6 as amended, at a concrete run: no observer against an observer whose hooks
succeed. -/
theorem Generate_observer_independent_witness :
    (Generate exampleDefaults textAnswerOpenAI ⟨none, "", ""⟩ exampleThread).err =
      (Generate exampleDefaults textAnswerOpenAI ⟨some quietObserver, "trace", ""⟩
        exampleThread).err ∧
    (Generate exampleDefaults textAnswerOpenAI ⟨none, "", ""⟩ exampleThread).thread =
      (Generate exampleDefaults textAnswerOpenAI ⟨some quietObserver, "trace", ""⟩
        exampleThread).thread ∧
    withoutObserverCalls
        (Generate exampleDefaults textAnswerOpenAI ⟨none, "", ""⟩ exampleThread).trace =
      withoutObserverCalls
        (Generate exampleDefaults textAnswerOpenAI ⟨some quietObserver, "trace", ""⟩
          exampleThread).trace :=
  Generate_observer_independent exampleDefaults textAnswerOpenAI exampleThread
    ⟨none, "", ""⟩ ⟨some quietObserver, "trace", ""⟩
    (fun ob hOb => Option.noConfusion hOb)
    (fun ob hOb => by
      cases hOb
      exact ⟨fun _ => ⟨rfl, fun hNil => Option.noConfusion hNil⟩, fun _ => rfl⟩)

/-- C6 as stated fails: against a run without observer, an observer whose `Generation` hook
fails makes `Generate` return an error before the provider is called, an observer whose
`GenerationEnd` hook fails makes it return an error and skip the cache write, and an
observer whose `Generation` hook returns a nil record and no error makes the call panic
after the provider call, when `StopObserveGeneration` writes through the nil record, so
that it returns nothing and skips the cache write. -/
theorem Generate_observer_counterexample :
    (Generate exampleDefaults textAnswerOpenAI ⟨none, "", ""⟩ exampleThread).err = none ∧
    (Generate exampleDefaults textAnswerOpenAI ⟨some failingObserver, "", ""⟩ exampleThread).err
      = some (.wrapBoth ErrOpenAIChat (.errorf "observer down")) ∧
    (Generate exampleDefaults textAnswerOpenAI ⟨none, "", ""⟩ exampleThread).thread ≠
      (Generate exampleDefaults textAnswerOpenAI ⟨some failingObserver, "", ""⟩
        exampleThread).thread ∧
    withoutObserverCalls
        (Generate exampleDefaults textAnswerOpenAI ⟨none, "", ""⟩ exampleThread).trace ≠
      withoutObserverCalls
        (Generate exampleDefaults textAnswerOpenAI ⟨some failingObserver, "", ""⟩
          exampleThread).trace ∧
    (Generate exampleDefaults textAnswerOpenAI ⟨some failingEndObserver, "", ""⟩
        exampleThread).err = some (.wrapBoth ErrOpenAIChat (.errorf "observer down")) ∧
    Event.cacheSet [1, 2] "four" ∈
      (Generate exampleDefaults textAnswerOpenAI ⟨none, "", ""⟩ exampleThread).trace ∧
    Event.cacheSet [1, 2] "four" ∉
      (Generate exampleDefaults textAnswerOpenAI ⟨some failingEndObserver, "", ""⟩
        exampleThread).trace ∧
    (Generate exampleDefaults textAnswerOpenAI ⟨some nilRecordObserver, "", ""⟩
        exampleThread).err = some (.panic nilDereference) ∧
    (∃ e ∈ (Generate exampleDefaults textAnswerOpenAI ⟨some nilRecordObserver, "", ""⟩
        exampleThread).trace, e.isProvider = true) ∧
    Event.cacheSet [1, 2] "four" ∉
      (Generate exampleDefaults textAnswerOpenAI ⟨some nilRecordObserver, "", ""⟩
        exampleThread).trace := by
  decide

/-! ### Tool failures -/

/-- The result text recorded for a call of an unregistered function. -/
theorem toolResultText_unregistered (o : OpenAI) (toolCall : ToolCall)
    (h : o.functions.lookup toolCall.Function.Name = none) :
    toolResultText (callTool o toolCall).1 =
      "error: unknown function " ++ toolCall.Function.Name := by
  unfold callTool
  simp only [h, toolResultText, Err.Error]
  have hText : "error: " ++ "unknown function " = "error: unknown function " := by decide
  rw [← String.append_assoc, hText]

/-- The result text recorded for a registered function whose invocation fails. -/
theorem toolResultText_failed (o : OpenAI) (toolCall : ToolCall) (fn : Function) (err : Err)
    (h : o.functions.lookup toolCall.Function.Name = some fn)
    (hErr : (callFnWithArgumentAsJSON fn.Fn toolCall.Function.Arguments).2 = some err) :
    toolResultText (callTool o toolCall).1 = "error: " ++ err.Error := by
  unfold callTool
  simp only [h]
  split
  · rename_i r e hr
    rw [hr] at hErr
    simp only [Option.some.injEq] at hErr
    subst hErr
    rfl
  · rename_i r hr
    rw [hr] at hErr
    exact Option.noConfusion hErr

/-- Every message of the dispatch is a tool-role message. -/
theorem callTools_roles (o : OpenAI) (toolCalls : List ToolCall) :
    ∀ m ∈ (callTools o toolCalls).1, m.Role = Role.tool := by
  intro m hm
  by_cases h : o.functions.length = 0 ∨ toolCalls.length = 0
  · rw [callTools_messages_of_empty o toolCalls h] at hm
    simp at hm
  · have hf : o.functions.length ≠ 0 := fun hf => h (Or.inl hf)
    have hc : toolCalls.length ≠ 0 := fun hc => h (Or.inr hc)
    rw [callTools_messages_of_nonempty o toolCalls hf hc] at hm
    obtain ⟨tc, -, rfl⟩ := List.mem_map.mp hm
    rfl

/-- After a dispatch with a registered tool and at least one call, the last message of the
thread is a tool-role message. -/
theorem lastMessage_after_dispatch (o : OpenAI) (toolCalls : List ToolCall)
    (before : List Message) (record : Message)
    (hf : o.functions.length ≠ 0) (hc : toolCalls ≠ []) :
    ∃ m, (⟨before ++ record :: (callTools o toolCalls).1⟩ : Thread).LastMessage = some m ∧
      m.Role = Role.tool := by
  have hlen : toolCalls.length ≠ 0 := by
    intro h; exact hc (List.length_eq_zero.mp h)
  have hne : (callTools o toolCalls).1 ≠ [] := by
    rw [callTools_messages_of_nonempty o toolCalls hf hlen]
    simpa using hc
  obtain ⟨m, hm⟩ : ∃ m, (callTools o toolCalls).1.getLast? = some m := by
    cases hL : (callTools o toolCalls).1.getLast? with
    | none => exact absurd (List.getLast?_eq_none_iff.mp hL) hne
    | some m => exact ⟨m, rfl⟩
  refine ⟨m, ?_, callTools_roles o toolCalls m (List.mem_of_getLast?_eq_some hm)⟩
  unfold Thread.LastMessage
  simp only
  have hCons : (record :: (callTools o toolCalls).1).getLast? = some m := by
    cases hL : (callTools o toolCalls).1 with
    | nil => exact absurd hL hne
    | cons a rest =>
      rw [hL] at hm
      rw [List.getLast?_cons_cons]
      exact hm
  rw [List.getLast?_append, hCons]
  rfl

/-- The unary call on a response that has a choice returns no error. -/
theorem generate_of_choice (o : OpenAI) (t : Thread) (request : ChatCompletionRequest)
    (choice : ChatCompletionChoice) (others : List ChatCompletionChoice) (usage : Usage)
    (hResp : o.openAIClient.CreateChatCompletion request = (⟨choice :: others, usage⟩, none)) :
    (generate o t request).err = none := by
  unfold generate
  simp only [hResp]
  split <;> rfl

/-- The unary call on a response whose first choice carries tool calls appends the
tool-call record and the results of the dispatch. -/
theorem generate_of_tool_calls (o : OpenAI) (t : Thread) (request : ChatCompletionRequest)
    (choice : ChatCompletionChoice) (others : List ChatCompletionChoice) (usage : Usage)
    (hResp : o.openAIClient.CreateChatCompletion request = (⟨choice :: others, usage⟩, none))
    (hCalls : choice.Message.ToolCalls ≠ []) :
    (generate o t request).thread =
      ⟨t.Messages ++ toolCallsToToolCallMessage choice.Message.ToolCalls ::
        (callTools o choice.Message.ToolCalls).1⟩ := by
  have hLen : choice.Message.ToolCalls.length > 0 := List.length_pos.mpr hCalls
  unfold generate
  simp [hResp, hLen]

/-- No cache write when the last message of the thread is a tool-role message. -/
theorem setCache_of_tool_last (c : cache.Cache) (t : Thread) (cacheResult : cache.Result)
    (m : Message) (hLast : t.LastMessage = some m) (hRole : m.Role = Role.tool) :
    setCache c t cacheResult = (none, []) := by
  unfold setCache
  simp [hLast, hRole]

/-- Without observer, the part of `Generate` after the probe succeeds on a response that
asks for tool calls when a tool is registered, whatever the tools return. -/
theorem generateAfterProbe_of_tool_calls (d : Defaults) (o : OpenAI) (t : Thread)
    (cached : Option (cache.Cache × cache.Result))
    (choice : ChatCompletionChoice) (others : List ChatCompletionChoice) (usage : Usage)
    (hUnary : o.streamCallbackFn = false) (hf : o.functions.length ≠ 0)
    (hResp : o.openAIClient.CreateChatCompletion (requestWithTools d o t)
      = (⟨choice :: others, usage⟩, none))
    (hCalls : choice.Message.ToolCalls ≠ []) :
    (generateAfterProbe d o ⟨none, "", ""⟩ t cached).err = none ∧
    (generateAfterProbe d o ⟨none, "", ""⟩ t cached).thread =
      ⟨t.Messages ++ toolCallsToToolCallMessage choice.Message.ToolCalls ::
        (callTools o choice.Message.ToolCalls).1⟩ := by
  have hErr := generate_of_choice o t _ choice others usage hResp
  have hThread := generate_of_tool_calls o t _ choice others usage hResp hCalls
  have hS0 : startObserveGeneration o ⟨none, "", ""⟩ t = ((none, none), []) := rfl
  have hP0 : ∀ g msgs, stopObserveGeneration ⟨none, "", ""⟩ g msgs = (.returned none, []) :=
    fun _ _ => rfl
  unfold generateAfterProbe
  simp only [hS0, hP0, hUnary, Bool.false_eq_true, if_false, hErr, hThread]
  cases cached with
  | none => exact ⟨rfl, rfl⟩
  | some pair =>
    obtain ⟨c, r⟩ := pair
    obtain ⟨m, hLast, hRole⟩ := lastMessage_after_dispatch o choice.Message.ToolCalls
      t.Messages (toolCallsToToolCallMessage choice.Message.ToolCalls) hf hCalls
    simp only [setCache_of_tool_last c _ r m hLast hRole]
    exact ⟨trivial, trivial⟩

/-- The whole call succeeds on a response that asks for tool calls when a tool is
registered, the cache (if any) misses and the observation hooks (if any) succeed. -/
theorem Generate_of_tool_calls (d : Defaults) (o : OpenAI) (ctx : Context) (t : Thread)
    (choice : ChatCompletionChoice) (others : List ChatCompletionChoice) (usage : Usage)
    (hUnary : o.streamCallbackFn = false) (hf : o.functions.length ≠ 0)
    (hMiss : ∀ c, o.cache = some c →
      errorsIs (c.Get (stringsJoin t.UserQuery "\n")).2 ErrCacheMiss = true)
    (hHooks : ctx.hooksSucceed)
    (hResp : o.openAIClient.CreateChatCompletion (requestWithTools d o t)
      = (⟨choice :: others, usage⟩, none))
    (hCalls : choice.Message.ToolCalls ≠ []) :
    (Generate d o ctx t).err = none ∧
    (Generate d o ctx t).thread.Messages =
      t.Messages ++ toolCallsToToolCallMessage choice.Message.ToolCalls ::
        (callTools o choice.Message.ToolCalls).1 := by
  obtain ⟨hE, hT, -⟩ := Generate_of_hooksSucceed d o ctx t hHooks
  rw [hE, hT]
  unfold Generate
  cases hCache : o.cache with
  | none =>
    obtain ⟨h1, h2⟩ := generateAfterProbe_of_tool_calls d o t none choice others usage
      hUnary hf hResp hCalls
    simp only [h1, h2]
    exact ⟨trivial, trivial⟩
  | some c =>
    have hm := hMiss c hCache
    cases hGet : (c.Get (stringsJoin t.UserQuery "\n")).2 with
    | none => rw [hGet] at hm; simp [errorsIs] at hm
    | some err =>
      rw [hGet] at hm
      have hProbe : getCache c t = (((c.Get (stringsJoin t.UserQuery "\n")).1, some err), t,
          [Event.cacheGet (stringsJoin t.UserQuery "\n")]) := by
        unfold getCache
        simp only [hGet]
      obtain ⟨h1, h2⟩ := generateAfterProbe_of_tool_calls d o t
        (some (c, (c.Get (stringsJoin t.UserQuery "\n")).1)) choice others usage
        hUnary hf hResp hCalls
      simp only [hProbe, hm, Bool.not_true, Bool.false_eq_true, if_false, h1, h2]
      exact ⟨trivial, trivial⟩

/-- C11: tool failures are recovered locally.  With a non-empty registry the dispatch
yields one message per call; the message of a call whose function is not registered
carries "error: unknown function <name>", the message of a call whose invocation (argument
decoding included) fails with an error carries "error: " followed by the error text, every
call of the list still gets its message, and the generation call that dispatched them
returns no error: `generate` on any response that has a choice, `stream` on any stream
that ends cleanly, and `Generate` on a unary response asking for the calls (cache missing
or absent, observation hooks succeeding). -/
theorem callTools_recovers_failures (d : Defaults) (o : OpenAI) (ctx : Context) (t : Thread)
    (toolCalls : List ToolCall) (hf : o.functions.length ≠ 0) :
    (callTools o toolCalls).1.length = toolCalls.length ∧
    (∀ (i : Nat) (tc : ToolCall), toolCalls[i]? = some tc →
      o.functions.lookup tc.Function.Name = none →
      (callTools o toolCalls).1[i]? =
        some ⟨Role.tool, [Content.toolResponse
          ⟨tc.ID, tc.Function.Name, "error: unknown function " ++ tc.Function.Name⟩]⟩) ∧
    (∀ (i : Nat) (tc : ToolCall) (fn : Function) (err : Err), toolCalls[i]? = some tc →
      o.functions.lookup tc.Function.Name = some fn →
      (callFnWithArgumentAsJSON fn.Fn tc.Function.Arguments).2 = some err →
      (callTools o toolCalls).1[i]? =
        some ⟨Role.tool, [Content.toolResponse
          ⟨tc.ID, tc.Function.Name, "error: " ++ err.Error⟩]⟩) ∧
    (∀ (i : Nat) (tc : ToolCall), toolCalls[i]? = some tc →
      (callTools o toolCalls).1[i]? =
        some ⟨Role.tool, [Content.toolResponse
          ⟨tc.ID, tc.Function.Name, toolResultText (callTool o tc).1⟩]⟩) ∧
    (∀ (choice : ChatCompletionChoice) (others : List ChatCompletionChoice) (usage : Usage),
      o.streamCallbackFn = false →
      (∀ c, o.cache = some c →
        errorsIs (c.Get (stringsJoin t.UserQuery "\n")).2 ErrCacheMiss = true) →
      ctx.hooksSucceed →
      o.openAIClient.CreateChatCompletion (requestWithTools d o t)
        = (⟨choice :: others, usage⟩, none) →
      choice.Message.ToolCalls = toolCalls → toolCalls ≠ [] →
      (Generate d o ctx t).err = none ∧
      (Generate d o ctx t).thread.Messages =
        t.Messages ++ toolCallsToToolCallMessage toolCalls :: (callTools o toolCalls).1) ∧
    (∀ (request : ChatCompletionRequest) (choice : ChatCompletionChoice)
      (others : List ChatCompletionChoice) (usage : Usage),
      o.openAIClient.CreateChatCompletion request = (⟨choice :: others, usage⟩, none) →
      (generate o t request).err = none) ∧
    (∀ (request : ChatCompletionRequest) (script rest : List RecvResult),
      o.openAIClient.CreateChatCompletionStream request = (script ++ rest, none) →
      (∀ r ∈ script, receivedChunk r) → endsStream rest = true →
      (stream o t request).err = none) := by
  have hAt : ∀ (i : Nat) (tc : ToolCall), toolCalls[i]? = some tc →
      (callTools o toolCalls).1[i]? =
        some ⟨Role.tool, [Content.toolResponse
          ⟨tc.ID, tc.Function.Name, toolResultText (callTool o tc).1⟩]⟩ := by
    intro i tc hi
    have hc : toolCalls.length ≠ 0 := by
      intro h0
      rw [List.length_eq_zero.mp h0] at hi
      simp at hi
    rw [callTools_messages_of_nonempty o toolCalls hf hc]
    simp [List.getElem?_map, hi, toolCallResultToThreadMessage_eq]
  refine ⟨?_, ?_, ?_, hAt, ?_, ?_, ?_⟩
  · by_cases hc : toolCalls.length = 0
    · rw [callTools_messages_of_empty o toolCalls (Or.inr hc), hc]
      rfl
    · rw [callTools_messages_of_nonempty o toolCalls hf hc]
      simp
  · intro i tc hi hLookup
    rw [hAt i tc hi, toolResultText_unregistered o tc hLookup]
  · intro i tc fn err hi hLookup hErr
    rw [hAt i tc hi, toolResultText_failed o tc fn err hLookup hErr]
  · intro choice others usage hUnary hMiss hHooks hResp hCalls hne
    subst hCalls
    exact Generate_of_tool_calls d o ctx t choice others usage hUnary hf hMiss hHooks hResp hne
  · intro request choice others usage hResp
    exact generate_of_choice o t request choice others usage hResp
  · intro request script rest hOpen hRecv hEnd
    exact (stream_of_received o t request script rest hOpen hRecv hEnd).1

/-- C11 at a concrete input: an unregistered function, a failing invocation and a
succeeding one, asked for by one unary response. -/
theorem callTools_recovers_failures_witness :
    failingToolsOpenAI.functions.length ≠ 0 ∧
    (callTools failingToolsOpenAI failingCalls).1 =
      [⟨Role.tool, [Content.toolResponse ⟨"t1", "nope", "error: unknown function nope"⟩]⟩,
       ⟨Role.tool, [Content.toolResponse ⟨"t2", "echo", "error: no arguments"⟩]⟩,
       ⟨Role.tool, [Content.toolResponse ⟨"t3", "echo", "ok"⟩]⟩] ∧
    (callTools failingToolsOpenAI failingCalls).1[0]? =
      some ⟨Role.tool, [Content.toolResponse
        ⟨"t1", "nope", "error: unknown function " ++ "nope"⟩]⟩ ∧
    (callTools failingToolsOpenAI failingCalls).1[1]? =
      some ⟨Role.tool, [Content.toolResponse
        ⟨"t2", "echo", "error: " ++ (Err.errorf "no arguments").Error⟩]⟩ ∧
    (Generate exampleDefaults failingToolsOpenAI exampleContext exampleThread).err = none := by
  have hf : failingToolsOpenAI.functions.length ≠ 0 := by decide
  have h := callTools_recovers_failures exampleDefaults failingToolsOpenAI exampleContext
    exampleThread failingCalls hf
  refine ⟨hf, by decide, h.2.1 0 (mkToolCall "t1" "nope" "x") rfl rfl,
    h.2.2.1 1 (mkToolCall "t2" "echo" "") echoFunction (.errorf "no arguments") rfl rfl rfl,
    ?_⟩
  exact (h.2.2.2.2.1 ⟨"tool_calls", ⟨"", failingCalls⟩⟩ [] ⟨0, 0, 0, none⟩ rfl
    (fun c hc => by cases hc; rfl)
    (fun ob hOb => Option.noConfusion hOb) rfl rfl (by decide)).1

/-! ### Optional request parameters -/

/-- The optional fields of the built request: each numeric field is the configured value
when that value is positive and stays zero otherwise; the response format is the
configured one. -/
theorem buildChatCompletionRequest_fields (d : Defaults) (o : OpenAI) (t : Thread) :
    (buildChatCompletionRequest d o t).MaxTokens = (if o.maxTokens > 0 then o.maxTokens else 0) ∧
    (buildChatCompletionRequest d o t).MaxCompletionTokens =
      (if o.maxCompletionTokens > 0 then o.maxCompletionTokens else 0) ∧
    (buildChatCompletionRequest d o t).Temperature =
      (if o.temperature > 0 then o.temperature else 0) ∧
    (buildChatCompletionRequest d o t).ResponseFormat = o.responseFormat := by
  unfold buildChatCompletionRequest
  refine ⟨?_, ?_, ?_, ?_⟩
  · by_cases h1 : o.maxTokens > 0 <;> by_cases h2 : o.maxCompletionTokens > 0 <;>
      by_cases h3 : o.temperature > 0 <;> simp [h1, h2, h3]
  · by_cases h1 : o.maxTokens > 0 <;> by_cases h2 : o.maxCompletionTokens > 0 <;>
      by_cases h3 : o.temperature > 0 <;> simp [h1, h2, h3]
  · by_cases h1 : o.maxTokens > 0 <;> by_cases h2 : o.maxCompletionTokens > 0 <;>
      by_cases h3 : o.temperature > 0 <;> simp [h1, h2, h3]
  · by_cases h1 : o.maxTokens > 0 <;> by_cases h2 : o.maxCompletionTokens > 0 <;>
      by_cases h3 : o.temperature > 0 <;> cases h4 : o.responseFormat <;> simp [h1, h2, h3]

/-- Attaching the tools leaves the optional parameters of the built request alone. -/
theorem requestWithTools_fields (d : Defaults) (o : OpenAI) (t : Thread) :
    (requestWithTools d o t).MaxTokens = (buildChatCompletionRequest d o t).MaxTokens ∧
    (requestWithTools d o t).MaxCompletionTokens =
      (buildChatCompletionRequest d o t).MaxCompletionTokens ∧
    (requestWithTools d o t).Temperature = (buildChatCompletionRequest d o t).Temperature ∧
    (requestWithTools d o t).ResponseFormat =
      (buildChatCompletionRequest d o t).ResponseFormat := by
  unfold requestWithTools
  simp only
  split <;> exact ⟨rfl, rfl, rfl, rfl⟩

/-- C12: in the request built by `buildChatCompletionRequest`, a temperature, a token
limit or a completion-token limit configured as zero leaves the field at its zero value,
an absent response format leaves the field nil, and a numeric parameter configured with
a value greater than zero is the value of the field; the request that is sent, with the
tools attached, has the same fields. -/
theorem buildChatCompletionRequest_optional_parameters (d : Defaults) (o : OpenAI)
    (t : Thread) :
    (o.temperature = 0 → (buildChatCompletionRequest d o t).Temperature = 0) ∧
    (o.maxTokens = 0 → (buildChatCompletionRequest d o t).MaxTokens = 0) ∧
    (o.maxCompletionTokens = 0 → (buildChatCompletionRequest d o t).MaxCompletionTokens = 0) ∧
    (o.responseFormat = none → (buildChatCompletionRequest d o t).ResponseFormat = none) ∧
    (o.temperature > 0 → (buildChatCompletionRequest d o t).Temperature = o.temperature) ∧
    (o.maxTokens > 0 → (buildChatCompletionRequest d o t).MaxTokens = o.maxTokens) ∧
    (o.maxCompletionTokens > 0 →
      (buildChatCompletionRequest d o t).MaxCompletionTokens = o.maxCompletionTokens) ∧
    ((requestWithTools d o t).Temperature = (buildChatCompletionRequest d o t).Temperature ∧
      (requestWithTools d o t).MaxTokens = (buildChatCompletionRequest d o t).MaxTokens ∧
      (requestWithTools d o t).MaxCompletionTokens =
        (buildChatCompletionRequest d o t).MaxCompletionTokens ∧
      (requestWithTools d o t).ResponseFormat =
        (buildChatCompletionRequest d o t).ResponseFormat) := by
  obtain ⟨hMax, hCompl, hTemp, hFormat⟩ := buildChatCompletionRequest_fields d o t
  obtain ⟨gMax, gCompl, gTemp, gFormat⟩ := requestWithTools_fields d o t
  refine ⟨?_, ?_, ?_, ?_, ?_, ?_, ?_, gTemp, gMax, gCompl, gFormat⟩
  · intro h; rw [hTemp, h]; simp
  · intro h; rw [hMax, h]; simp
  · intro h; rw [hCompl, h]; simp
  · intro h; rw [hFormat, h]
  · intro h; rw [hTemp, if_pos h]
  · intro h; rw [hMax, if_pos h]
  · intro h; rw [hCompl, if_pos h]

/-- C12 at concrete inputs: the example configuration leaves everything unset, and a
configuration with temperature 0.7 and a limit of 256 tokens sets those two fields. -/
theorem buildChatCompletionRequest_optional_parameters_witness :
    (buildChatCompletionRequest exampleDefaults exampleOpenAI exampleThread).Temperature = 0 ∧
    (buildChatCompletionRequest exampleDefaults exampleOpenAI exampleThread).MaxTokens = 0 ∧
    (buildChatCompletionRequest exampleDefaults exampleOpenAI exampleThread).MaxCompletionTokens
      = 0 ∧
    (buildChatCompletionRequest exampleDefaults exampleOpenAI exampleThread).ResponseFormat
      = none ∧
    (buildChatCompletionRequest exampleDefaults
      { exampleOpenAI with temperature := 7 / 10, maxTokens := 256 } exampleThread).Temperature
      = 7 / 10 ∧
    (buildChatCompletionRequest exampleDefaults
      { exampleOpenAI with temperature := 7 / 10, maxTokens := 256 } exampleThread).MaxTokens
      = 256 := by
  have h := buildChatCompletionRequest_optional_parameters exampleDefaults exampleOpenAI
    exampleThread
  have g := buildChatCompletionRequest_optional_parameters exampleDefaults
    { exampleOpenAI with temperature := 7 / 10, maxTokens := 256 } exampleThread
  exact ⟨h.1 rfl, h.2.1 rfl, h.2.2.1 rfl, h.2.2.2.1 rfl,
    g.2.2.2.2.1 (by norm_num), g.2.2.2.2.2.1 (by decide)⟩

/-! ### The usage-accounting entry point -/

/-- The unary helper with usage does to the thread what the plain unary helper does: same
error, same thread, same collaborator calls. -/
theorem generateWithUsage_run (o : OpenAI) (t : Thread) (request : ChatCompletionRequest) :
    (generateWithUsage o t request).2 = generate o t request := by
  unfold generateWithUsage generate
  simp only
  cases (o.openAIClient.CreateChatCompletion request).2 with
  | some err => rfl
  | none =>
    simp only
    cases (o.openAIClient.CreateChatCompletion request).1.Choices with
    | nil => rfl
    | cons choice others =>
      simp only
      split <;> rfl

/-- The round trip of the entry point with usage is the round trip of the plain one. -/
theorem generateWithUsageAfterProbe_run (d : Defaults) (o : OpenAI) (ctx : Context)
    (t : Thread) (cached : Option (cache.Cache × cache.Result)) :
    (generateWithUsageAfterProbe d o ctx t cached).2 = generateAfterProbe d o ctx t cached := by
  have hGen : (if o.streamCallbackFn then
        ((some ⟨0, 0, 0, 0⟩ : Option TokensUsage), stream o t (requestWithTools d o t))
      else generateWithUsage o t (requestWithTools d o t)).2 =
      (if o.streamCallbackFn then stream o t (requestWithTools d o t)
        else generate o t (requestWithTools d o t)) := by
    split
    · rfl
    · exact generateWithUsage_run o t _
  unfold generateWithUsageAfterProbe generateAfterProbe
  simp only [hGen]
  cases (startObserveGeneration o ctx t).1.2 with
  | some err => rfl
  | none =>
    simp only
    cases (if o.streamCallbackFn then stream o t (requestWithTools d o t)
        else generate o t (requestWithTools d o t)).err with
    | some err => rfl
    | none =>
      simp only
      split
      · rfl
      · rfl
      · cases cached with
        | none => rfl
        | some pair =>
          obtain ⟨c, r⟩ := pair
          simp only
          split <;> rfl

/-- The entry point with usage runs as the plain one. -/
theorem GenerateWithUsage_run (d : Defaults) (o : OpenAI) (ctx : Context) (t : Thread) :
    (GenerateWithUsage d o ctx t).2 = Generate d o ctx t := by
  unfold GenerateWithUsage Generate
  cases o.cache with
  | none => exact generateWithUsageAfterProbe_run d o ctx t none
  | some c =>
    simp only
    cases (getCache c t).1.2 with
    | none => rfl
    | some err =>
      simp only
      split
      · rfl
      · simp only [generateWithUsageAfterProbe_run]

/-- C13: the entry point with usage performs the same translation as the plain one: it
returns the same error (so an error exactly when `Generate` does), leaves the thread with
the same messages, and makes the same collaborator calls; and the unary helpers
`generateWithUsage` and `generate` return the same error and leave the same messages for
every request and provider response. -/
theorem GenerateWithUsage_same_translation (d : Defaults) (o : OpenAI) (ctx : Context)
    (t : Thread) :
    (GenerateWithUsage d o ctx t).2.err = (Generate d o ctx t).err ∧
    (GenerateWithUsage d o ctx t).2.err.isSome = (Generate d o ctx t).err.isSome ∧
    (GenerateWithUsage d o ctx t).2.thread.Messages = (Generate d o ctx t).thread.Messages ∧
    (GenerateWithUsage d o ctx t).2.trace = (Generate d o ctx t).trace ∧
    (∀ request : ChatCompletionRequest,
      (generateWithUsage o t request).2.err = (generate o t request).err ∧
      (generateWithUsage o t request).2.thread.Messages =
        (generate o t request).thread.Messages) := by
  rw [GenerateWithUsage_run]
  refine ⟨rfl, rfl, rfl, rfl, ?_⟩
  intro request
  rw [generateWithUsage_run]
  exact ⟨rfl, rfl⟩

/-! ### The usage value -/

/-- The unary helper with usage, when it succeeds, returns the counters of the response. -/
theorem generateWithUsage_usage (o : OpenAI) (t : Thread) (request : ChatCompletionRequest) :
    ((generateWithUsage o t request).2.err = none →
      (generateWithUsage o t request).1 =
        some (usageOfResponse (o.openAIClient.CreateChatCompletion request).1)) ∧
    (∀ err, (generateWithUsage o t request).2.err = some err →
      (generateWithUsage o t request).1 = none) := by
  unfold generateWithUsage
  simp only
  cases (o.openAIClient.CreateChatCompletion request).2 with
  | some err => simp
  | none =>
    simp only
    cases (o.openAIClient.CreateChatCompletion request).1.Choices with
    | nil => simp
    | cons choice others =>
      simp only
      split <;> simp

/-- The usage value of the round trip: on success the zero counters when streaming and the
counters of the response otherwise; on an error no usage value. -/
theorem generateWithUsageAfterProbe_usage (d : Defaults) (o : OpenAI) (ctx : Context)
    (t : Thread) (cached : Option (cache.Cache × cache.Result)) :
    ((generateWithUsageAfterProbe d o ctx t cached).2.err = none →
      (generateWithUsageAfterProbe d o ctx t cached).1 =
        (if o.streamCallbackFn then some ⟨0, 0, 0, 0⟩
         else some (usageOfResponse
          (o.openAIClient.CreateChatCompletion (requestWithTools d o t)).1))) ∧
    (∀ err, (generateWithUsageAfterProbe d o ctx t cached).2.err = some err →
      (generateWithUsageAfterProbe d o ctx t cached).1 = none) := by
  have hGen : (if o.streamCallbackFn then
        ((some ⟨0, 0, 0, 0⟩ : Option TokensUsage), stream o t (requestWithTools d o t))
      else generateWithUsage o t (requestWithTools d o t)).2.err = none →
      (if o.streamCallbackFn then
        ((some ⟨0, 0, 0, 0⟩ : Option TokensUsage), stream o t (requestWithTools d o t))
      else generateWithUsage o t (requestWithTools d o t)).1 =
      (if o.streamCallbackFn then some ⟨0, 0, 0, 0⟩
         else some (usageOfResponse
          (o.openAIClient.CreateChatCompletion (requestWithTools d o t)).1)) := by
    split
    · intro _; rfl
    · exact (generateWithUsage_usage o t _).1
  unfold generateWithUsageAfterProbe
  simp only
  cases (startObserveGeneration o ctx t).1.2 with
  | some err => simp
  | none =>
    simp only
    cases hG : (if o.streamCallbackFn then
        ((some ⟨0, 0, 0, 0⟩ : Option TokensUsage), stream o t (requestWithTools d o t))
      else generateWithUsage o t (requestWithTools d o t)).2.err with
    | some err => simp
    | none =>
      have hUsage := hGen hG
      simp only
      split
      · simp
      · simp
      · cases cached with
        | none => simp [hUsage]
        | some pair =>
          obtain ⟨c, r⟩ := pair
          simp only
          split <;> simp [hUsage]

/-- A cache write cannot fail when the cache's `Set` never fails. -/
theorem setCache_err_of_set_ok (c : cache.Cache) (t : Thread) (cacheResult : cache.Result)
    (h : ∀ embedding answer, c.Set embedding answer = none) :
    (setCache c t cacheResult).1 = none := by
  unfold setCache
  cases t.LastMessage with
  | none => rfl
  | some m =>
    simp only
    split
    · rfl
    · exact h _ _

/-- Without observer, the part of `Generate` after the probe succeeds when the provider
round trip succeeds and the cache write does not fail. -/
theorem generateAfterProbe_success (d : Defaults) (o : OpenAI) (t : Thread)
    (cached : Option (cache.Cache × cache.Result))
    (hGen : (if o.streamCallbackFn then stream o t (requestWithTools d o t)
      else generate o t (requestWithTools d o t)).err = none)
    (hSet : ∀ c r, cached = some (c, r) → ∀ embedding answer, c.Set embedding answer = none) :
    (generateAfterProbe d o ⟨none, "", ""⟩ t cached).err = none := by
  have hS0 : startObserveGeneration o ⟨none, "", ""⟩ t = ((none, none), []) := rfl
  have hP0 : ∀ g msgs, stopObserveGeneration ⟨none, "", ""⟩ g msgs = (.returned none, []) :=
    fun _ _ => rfl
  unfold generateAfterProbe
  simp only [hS0, hP0, hGen]
  cases cached with
  | none => rfl
  | some pair =>
    obtain ⟨c, r⟩ := pair
    simp only [setCache_err_of_set_ok c _ r (hSet c r rfl)]

/-- The whole call succeeds when the cache (if any) misses and its write does not fail,
the observation hooks (if any) succeed, and the provider round trip succeeds. -/
theorem Generate_success (d : Defaults) (o : OpenAI) (ctx : Context) (t : Thread)
    (hCache : ∀ c, o.cache = some c →
      errorsIs (c.Get (stringsJoin t.UserQuery "\n")).2 ErrCacheMiss = true ∧
      ∀ embedding answer, c.Set embedding answer = none)
    (hHooks : ctx.hooksSucceed)
    (hGen : (if o.streamCallbackFn then stream o t (requestWithTools d o t)
      else generate o t (requestWithTools d o t)).err = none) :
    (Generate d o ctx t).err = none := by
  rw [(Generate_of_hooksSucceed d o ctx t hHooks).1]
  unfold Generate
  cases hC : o.cache with
  | none =>
    simp only
    exact generateAfterProbe_success d o t none hGen (fun c r h => Option.noConfusion h)
  | some c =>
    obtain ⟨hMiss, hSet⟩ := hCache c hC
    cases hGet : (c.Get (stringsJoin t.UserQuery "\n")).2 with
    | none => rw [hGet] at hMiss; simp [errorsIs] at hMiss
    | some err =>
      rw [hGet] at hMiss
      have hProbe : getCache c t = (((c.Get (stringsJoin t.UserQuery "\n")).1, some err), t,
          [Event.cacheGet (stringsJoin t.UserQuery "\n")]) := by
        unfold getCache
        simp only [hGet]
      simp only [hProbe, hMiss, Bool.not_true, Bool.false_eq_true, if_false]
      exact generateAfterProbe_success d o t _ hGen
        (fun c' r h => by cases h; exact hSet)

/-- A run whose cache probe hits makes no call but the probe. -/
theorem Generate_trace_of_hit (d : Defaults) (o : OpenAI) (ctx : Context) (t : Thread)
    (c : cache.Cache) (hCache : o.cache = some c)
    (hHit : (c.Get (stringsJoin t.UserQuery "\n")).2 = none) :
    (Generate d o ctx t).trace = [Event.cacheGet (stringsJoin t.UserQuery "\n")] := by
  have hGet : (getCache c t).1.2 = none ∧
      (getCache c t).2.2 = [Event.cacheGet (stringsJoin t.UserQuery "\n")] := by
    unfold getCache
    simp only [hHit]
    exact ⟨trivial, trivial⟩
  unfold Generate
  simp only [hCache, hGet.1, hGet.2]

/-- The usage value of the entry point with usage when the cache probe, if any, does not
hit: on success the zero counters when streaming and the counters of the response
otherwise; and on any error no usage value. -/
theorem GenerateWithUsage_value (d : Defaults) (o : OpenAI) (ctx : Context)
    (t : Thread) :
    ((∀ c, o.cache = some c → (c.Get (stringsJoin t.UserQuery "\n")).2 ≠ none) →
      (GenerateWithUsage d o ctx t).2.err = none →
      (GenerateWithUsage d o ctx t).1 =
        (if o.streamCallbackFn then some ⟨0, 0, 0, 0⟩
         else some (usageOfResponse
          (o.openAIClient.CreateChatCompletion (requestWithTools d o t)).1))) ∧
    (∀ err, (GenerateWithUsage d o ctx t).2.err = some err →
      (GenerateWithUsage d o ctx t).1 = none) := by
  unfold GenerateWithUsage
  cases hC : o.cache with
  | none =>
    simp only
    exact ⟨fun _ => (generateWithUsageAfterProbe_usage d o ctx t none).1,
      (generateWithUsageAfterProbe_usage d o ctx t none).2⟩
  | some c =>
    cases hGet : (c.Get (stringsJoin t.UserQuery "\n")).2 with
    | none =>
      have hProbe : (getCache c t).1.2 = none := by
        unfold getCache
        simp only [hGet]
      simp only [hProbe]
      refine ⟨fun hNoHit _ => absurd hGet (hNoHit c rfl), ?_⟩
      intro err hErr
      exact Option.noConfusion hErr
    | some e =>
      have hProbe : getCache c t = (((c.Get (stringsJoin t.UserQuery "\n")).1, some e), t,
          [Event.cacheGet (stringsJoin t.UserQuery "\n")]) := by
        unfold getCache
        simp only [hGet]
      simp only [hProbe]
      cases hMiss : errorsIs (some e) ErrCacheMiss with
      | false => simp
      | true =>
        simp only [Bool.not_true, Bool.false_eq_true, if_false]
        exact ⟨fun _ => (generateWithUsageAfterProbe_usage d o ctx t _).1,
          (generateWithUsageAfterProbe_usage d o ctx t _).2⟩

/-- The counters of the usage value built from a response. -/
theorem usageOfResponse_fields (response : ChatCompletionResponse) :
    (usageOfResponse response).PromptTokens = response.Usage.PromptTokens ∧
    (usageOfResponse response).CompletionTokens = response.Usage.CompletionTokens ∧
    (usageOfResponse response).AudioTokens =
      (match response.Usage.PromptTokensDetails with
        | some details => details.AudioTokens
        | none => 0) ∧
    (usageOfResponse response).CachedTokens =
      (match response.Usage.PromptTokensDetails with
        | some details => details.CachedTokens
        | none => 0) := by
  unfold usageOfResponse
  cases response.Usage.PromptTokensDetails <;> exact ⟨rfl, rfl, rfl, rfl⟩

/-- A run with usage that reaches the provider did not hit the cache. -/
theorem GenerateWithUsage_reached_no_hit (d : Defaults) (o : OpenAI) (ctx : Context)
    (t : Thread)
    (hReached : ∃ e ∈ (GenerateWithUsage d o ctx t).2.trace, e.isProvider = true) :
    ∀ c, o.cache = some c → (c.Get (stringsJoin t.UserQuery "\n")).2 ≠ none := by
  intro c hC hHit
  rw [GenerateWithUsage_run, Generate_trace_of_hit d o ctx t c hC hHit] at hReached
  obtain ⟨e, he, hp⟩ := hReached
  rw [List.mem_singleton] at he
  subst he
  exact Bool.noConfusion hp

/-- C14, as the code has it.  With a stream callback: when the stream completes without
error, the cache (if any) missed and its write does not fail, and the observation hooks
(if any) succeed, `GenerateWithUsage` returns no error and the usage value with all four
counters zero; and whenever a call that reached the provider returns no error, the usage
value is that one.  Without a stream callback: whenever a call that reached the provider
returns no error, the prompt and completion counters of the usage value are those of the
provider response, and its audio and cached counters are those of the response's
prompt-token details, or zero when the details are absent.  A call that returns an error
returns no usage value. -/
theorem GenerateWithUsage_usage (d : Defaults) (o : OpenAI) (ctx : Context) (t : Thread) :
    (o.streamCallbackFn = true →
      (∀ c, o.cache = some c →
        errorsIs (c.Get (stringsJoin t.UserQuery "\n")).2 ErrCacheMiss = true ∧
        ∀ embedding answer, c.Set embedding answer = none) →
      ctx.hooksSucceed →
      (stream o t (requestWithTools d o t)).err = none →
      (GenerateWithUsage d o ctx t).2.err = none ∧
      (GenerateWithUsage d o ctx t).1 = some ⟨0, 0, 0, 0⟩) ∧
    (o.streamCallbackFn = true →
      (∃ e ∈ (GenerateWithUsage d o ctx t).2.trace, e.isProvider = true) →
      (GenerateWithUsage d o ctx t).2.err = none →
      (GenerateWithUsage d o ctx t).1 = some ⟨0, 0, 0, 0⟩) ∧
    (o.streamCallbackFn = false →
      (∃ e ∈ (GenerateWithUsage d o ctx t).2.trace, e.isProvider = true) →
      (GenerateWithUsage d o ctx t).2.err = none →
      ∃ usage, (GenerateWithUsage d o ctx t).1 = some usage ∧
        usage.PromptTokens =
          (o.openAIClient.CreateChatCompletion (requestWithTools d o t)).1.Usage.PromptTokens ∧
        usage.CompletionTokens =
          (o.openAIClient.CreateChatCompletion
            (requestWithTools d o t)).1.Usage.CompletionTokens ∧
        usage.AudioTokens =
          (match (o.openAIClient.CreateChatCompletion
              (requestWithTools d o t)).1.Usage.PromptTokensDetails with
            | some details => details.AudioTokens
            | none => 0) ∧
        usage.CachedTokens =
          (match (o.openAIClient.CreateChatCompletion
              (requestWithTools d o t)).1.Usage.PromptTokensDetails with
            | some details => details.CachedTokens
            | none => 0)) ∧
    (∀ err, (GenerateWithUsage d o ctx t).2.err = some err →
      (GenerateWithUsage d o ctx t).1 = none) := by
  obtain ⟨hValue, hNone⟩ := GenerateWithUsage_value d o ctx t
  refine ⟨?_, ?_, ?_, hNone⟩
  · intro hStream hCache hHooks hOk
    have hGen : (if o.streamCallbackFn then stream o t (requestWithTools d o t)
        else generate o t (requestWithTools d o t)).err = none := by
      simp only [hStream, if_true]
      exact hOk
    have hErr : (GenerateWithUsage d o ctx t).2.err = none := by
      rw [GenerateWithUsage_run]
      exact Generate_success d o ctx t hCache hHooks hGen
    have hNoHit : ∀ c, o.cache = some c → (c.Get (stringsJoin t.UserQuery "\n")).2 ≠ none := by
      intro c hC hHit
      have hMiss := (hCache c hC).1
      rw [hHit] at hMiss
      simp [errorsIs] at hMiss
    refine ⟨hErr, ?_⟩
    rw [hValue hNoHit hErr]
    simp [hStream]
  · intro hStream hReached hErr
    rw [hValue (GenerateWithUsage_reached_no_hit d o ctx t hReached) hErr]
    simp [hStream]
  · intro hUnary hReached hErr
    refine ⟨usageOfResponse
      (o.openAIClient.CreateChatCompletion (requestWithTools d o t)).1, ?_,
      usageOfResponse_fields _⟩
    rw [hValue (GenerateWithUsage_reached_no_hit d o ctx t hReached) hErr]
    simp [hUnary]

/-- C14 as amended, at concrete runs: a stream that completes, without cache and
observer, gives the zero counters; a unary response with counters 12 and 5 and details 3
and 4 gives these four values. -/
theorem GenerateWithUsage_usage_witness :
    ((GenerateWithUsage exampleDefaults (streamingOpenAI helloToolScript) exampleContext
        exampleThread).2.err = none ∧
      (GenerateWithUsage exampleDefaults (streamingOpenAI helloToolScript) exampleContext
        exampleThread).1 = some ⟨0, 0, 0, 0⟩) ∧
    (GenerateWithUsage exampleDefaults usageOpenAI exampleContext exampleThread).1
      = some ⟨12, 5, 3, 4⟩ := by
  have hStream := (GenerateWithUsage_usage exampleDefaults (streamingOpenAI helloToolScript)
    exampleContext exampleThread).1 rfl (fun c hc => Option.noConfusion hc)
    (fun ob hOb => Option.noConfusion hOb) (by decide)
  obtain ⟨usage, hUsage, h1, h2, h3, h4⟩ :=
    (GenerateWithUsage_usage exampleDefaults usageOpenAI exampleContext exampleThread).2.2.1
      rfl ⟨Event.createChatCompletion _, List.mem_cons_self _ _, rfl⟩ (by decide)
  refine ⟨hStream, ?_⟩
  rw [hUsage]
  cases usage
  simp only at h1 h2 h3 h4
  subst h1 h2 h3 h4
  rfl

/-- C14 as stated fails in two ways.  With a stream callback, the stream completes without
error but the `GenerationEnd` hook fails: `GenerateWithUsage` returns that error and no
usage value.  Without a stream callback, the cache probe hits: the call succeeds and
returns no usage value, so no counters of a provider response. -/
theorem GenerateWithUsage_usage_counterexample :
    (stream (streamingOpenAI helloToolScript) exampleThread
      (requestWithTools exampleDefaults (streamingOpenAI helloToolScript) exampleThread)).err
      = none ∧
    (GenerateWithUsage exampleDefaults (streamingOpenAI helloToolScript)
      ⟨some failingEndObserver, "", ""⟩ exampleThread).2.err
      = some (.wrapBoth ErrOpenAIChat (.errorf "observer down")) ∧
    (GenerateWithUsage exampleDefaults (streamingOpenAI helloToolScript)
      ⟨some failingEndObserver, "", ""⟩ exampleThread).1 = none ∧
    (GenerateWithUsage exampleDefaults { exampleOpenAI with cache := some hitCache }
      exampleContext exampleThread).2.err = none ∧
    (GenerateWithUsage exampleDefaults { exampleOpenAI with cache := some hitCache }
      exampleContext exampleThread).1 = none := by
  decide

end Lingoose
